import Mathlib

/-!
# Verification development for `myorm` (src/myorm.go)

A shallow embedding of the query builder and of its query compiler.

Modelling conventions
* Go `string` is `String`; `interface{}` values are an arbitrary type `V`.
* Go slices are `List`; `make([]T, n)` is `List.replicate n zero`; an indexed
  write `s[i] = v` is `writeAt s i v`, which is `none` (a run-time panic)
  when `i` is out of range.  Functions that can panic return `Option`.
* Go maps from `string` are association lists read with `mapGet`, which
  gives the zero value for an absent key.
* `fmt.Sprintf` with `%v` on strings is string concatenation;
  `strings.Join` is written out as `strings.Join`.
* `int` and `int64` are `Int` with explicit wrapping `wrap64`.
-/

namespace myorm

/-! ## Library functions used by the source -/

/-- Go `strings.Join(elems, sep)`. -/
def strings.Join : List String → String → String
  | [], _ => ""
  | [a], _ => a
  | a :: b :: rest, sep => a ++ sep ++ strings.Join (b :: rest) sep

/-- Indexed write `s[i] = v` into a slice; `none` is the out-of-range panic. -/
def writeAt {α : Type} (s : List α) (i : Nat) (v : α) : Option (List α) :=
  if i < s.length then some (s.set i v) else none

/-- Read of a Go `map[string]string`: the zero value `""` for an absent key. -/
def mapGet (m : List (String × String)) (k : String) : String :=
  match m.lookup k with
  | some v => v
  | none => ""

/-! ## Data model -/

/-- Go `type join struct`. -/
structure join where
  table : String
  operator : String
  column1 : String
  column2 : String
deriving DecidableEq, Repr

/-- Go `type whereIn struct`. -/
structure whereIn (V : Type) where
  column : String
  values : List V
deriving DecidableEq, Repr

/-- Go `type whereRawStruct struct`. -/
structure whereRawStruct (V : Type) where
  RawQuery : String
  Bindings : List V
deriving DecidableEq, Repr

/-- Go `type MyOrm struct`, the fields the query compiler reads.  The handle
map `connections` is a map from names to handles of type `H`. -/
structure MyOrm (H : Type) where
  connections : List (String × H)
  defaultConnection : String
  connectionNames : List String
  connectionEncKeys : List (String × String)
  testMode : Bool
  logQueries : Bool
deriving DecidableEq, Repr

/-- Go `type QueryBuilder struct`.  A `[3]interface{}` predicate holds
`column`, `operator` (both strings, see `Where`) and the value.  The field
`where` is written `where_`. -/
structure QueryBuilder (H V : Type) where
  selectColumns : List String
  where_ : List (String × String × V)
  whereIn : List (whereIn V)
  table : String
  connection : String
  leftJoin : List join
  rightJoin : List join
  innerJoin : List join
  fullJoin : List join
  whereEncrypted : List (String × String × V)
  insert : List (String × V)
  encryptedColumns : List String
  groupBy : List String
  orderBy : List String
  whereRaw : List (whereRawStruct V)
  myOrm : MyOrm H
deriving DecidableEq, Repr

/-- Go `ContainsStr`. -/
def ContainsStr : List String → String → Bool
  | [], _ => false
  | el :: rest, needle => if el = needle then true else ContainsStr rest needle

/-- Go `(o *MyOrm) Table`. -/
def MyOrm.Table {H : Type} (V : Type) (o : MyOrm H) (table : String) : QueryBuilder H V :=
  { selectColumns := [], where_ := [], whereIn := [], table := table, connection := "",
    leftJoin := [], rightJoin := [], innerJoin := [], fullJoin := [], whereEncrypted := [],
    insert := [], encryptedColumns := [], groupBy := [], orderBy := [], whereRaw := [],
    myOrm := o }

/-! ## Clause accumulators -/

section Accumulators
variable {H V : Type}

/-- Go `(o *QueryBuilder) Select`. -/
def QueryBuilder.Select (o : QueryBuilder H V) (columns : List String) : QueryBuilder H V :=
  { o with selectColumns := o.selectColumns ++ columns }

/-- Go `(o *QueryBuilder) EncryptedColumns`. -/
def QueryBuilder.EncryptedColumns (o : QueryBuilder H V) (columns : List String) :
    QueryBuilder H V :=
  { o with encryptedColumns := o.encryptedColumns ++ columns }

/-- Go `(o *QueryBuilder) LeftJoin`. -/
def QueryBuilder.LeftJoin (o : QueryBuilder H V) (table column1 operator column2 : String) :
    QueryBuilder H V :=
  { o with leftJoin := o.leftJoin ++
      [{ table := table, operator := operator, column1 := column1, column2 := column2 }] }

/-- Go `(o *QueryBuilder) RightJoin`. -/
def QueryBuilder.RightJoin (o : QueryBuilder H V) (table column1 operator column2 : String) :
    QueryBuilder H V :=
  { o with rightJoin := o.rightJoin ++
      [{ table := table, operator := operator, column1 := column1, column2 := column2 }] }

/-- Go `(o *QueryBuilder) InnerJoin`. -/
def QueryBuilder.InnerJoin (o : QueryBuilder H V) (table column1 operator column2 : String) :
    QueryBuilder H V :=
  { o with innerJoin := o.innerJoin ++
      [{ table := table, operator := operator, column1 := column1, column2 := column2 }] }

/-- Go `(o *QueryBuilder) FullJoin`. -/
def QueryBuilder.FullJoin (o : QueryBuilder H V) (table column1 operator column2 : String) :
    QueryBuilder H V :=
  { o with fullJoin := o.fullJoin ++
      [{ table := table, operator := operator, column1 := column1, column2 := column2 }] }

/-- Go `(o *QueryBuilder) Where`. -/
def QueryBuilder.Where (o : QueryBuilder H V) (column operator : String) (value : V) :
    QueryBuilder H V :=
  { o with where_ := o.where_ ++ [(column, operator, value)] }

/-- Go `(o *QueryBuilder) WhereRaw`. -/
def QueryBuilder.WhereRaw (o : QueryBuilder H V) (query : String) (bindings : List V) :
    QueryBuilder H V :=
  { o with whereRaw := o.whereRaw ++ [{ RawQuery := query, Bindings := bindings }] }

/-- Go `(o *QueryBuilder) GroupBy`. -/
def QueryBuilder.GroupBy (o : QueryBuilder H V) (columns : List String) : QueryBuilder H V :=
  { o with groupBy := o.groupBy ++ columns }

/-- Go `(o *QueryBuilder) OrderBy`. -/
def QueryBuilder.OrderBy (o : QueryBuilder H V) (columns : List String) : QueryBuilder H V :=
  { o with orderBy := o.orderBy ++ columns }

/-- Go `(o *QueryBuilder) WhereEncrypted`. -/
def QueryBuilder.WhereEncrypted (o : QueryBuilder H V) (column operator : String) (value : V) :
    QueryBuilder H V :=
  { o with whereEncrypted := o.whereEncrypted ++ [(column, operator, value)] }

/-- The copy loop of `WhereIn`: `vals[i] = el; i++` for each element of
`values`, returning the final `vals`. -/
def WhereIn.copy : List V → Nat → List V → Option (List V)
  | vals, _, [] => some vals
  | vals, i, el :: rest =>
    match writeAt vals i el with
    | none => none
    | some vals1 => WhereIn.copy vals1 (i + 1) rest

/-- Go `(o *QueryBuilder) WhereIn`.  `default` is the nil interface value that
`make` fills the fresh slice with. -/
def QueryBuilder.WhereIn [Inhabited V] (o : QueryBuilder H V) (column : String)
    (values : List V) : Option (QueryBuilder H V) :=
  match WhereIn.copy (List.replicate values.length default) 0 values with
  | none => none
  | some vals => some { o with whereIn := o.whereIn ++ [{ column := column, values := vals }] }

end Accumulators

/-! ## Query compiler -/

section Compiler
variable {H V : Type}

/-- The loop state of `genWhere`: the fragment array `str`, the bindings
`values` and the write index `i`. -/
structure genWhere.State (V : Type) where
  str : List String
  values : List V
  i : Nat
deriving DecidableEq, Repr

/-- First loop of `genWhere`, over `o.where`. -/
def genWhere.loopWhere : genWhere.State V → List (String × String × V) →
    Option (genWhere.State V)
  | st, [] => some st
  | st, wArr :: rest =>
    let wStr := [wArr.1, wArr.2.1, "?"]
    match writeAt st.str st.i (strings.Join wStr " ") with
    | none => none
    | some str =>
      genWhere.loopWhere { str := str, values := st.values ++ [wArr.2.2], i := st.i + 1 } rest

/-- Second loop of `genWhere`, over `o.whereEncrypted`. -/
def genWhere.loopEncrypted (encKey : String) : genWhere.State V →
    List (String × String × V) → Option (genWhere.State V)
  | st, [] => some st
  | st, wArr :: rest =>
    let wStr := ["AES_DECRYPT(" ++ wArr.1 ++ ", '" ++ encKey ++ "')", wArr.2.1, "?"]
    match writeAt st.str st.i (strings.Join wStr " ") with
    | none => none
    | some str =>
      genWhere.loopEncrypted encKey
        { str := str, values := st.values ++ [wArr.2.2], i := st.i + 1 } rest

/-- The inner loop of the `whereIn` part: `qMarks[j] = "?"`, append the
value, `j++`.  Returns the final `qMarks` and `values`. -/
def genWhere.loopQMarks : List String → List V → Nat → List V →
    Option (List String × List V)
  | qMarks, values, _, [] => some (qMarks, values)
  | qMarks, values, j, val :: rest =>
    match writeAt qMarks j "?" with
    | none => none
    | some qMarks1 => genWhere.loopQMarks qMarks1 (values ++ [val]) (j + 1) rest

/-- Third loop of `genWhere`, over `o.whereIn`. -/
def genWhere.loopIn : genWhere.State V → List (whereIn V) → Option (genWhere.State V)
  | st, [] => some st
  | st, w :: rest =>
    if w.values.length = 0 then
      genWhere.loopIn { st with i := st.i + 1 } rest
    else
      match genWhere.loopQMarks (List.replicate w.values.length "") st.values 0 w.values with
      | none => none
      | some (qMarks, values) =>
        match writeAt st.str st.i (w.column ++ " IN (" ++ strings.Join qMarks "," ++ ")") with
        | none => none
        | some str => genWhere.loopIn { str := str, values := values, i := st.i + 1 } rest

/-- Fourth loop of `genWhere`, over `o.whereRaw`. -/
def genWhere.loopRaw : genWhere.State V → List (whereRawStruct V) →
    Option (genWhere.State V)
  | st, [] => some st
  | st, w :: rest =>
    match writeAt st.str st.i w.RawQuery with
    | none => none
    | some str =>
      genWhere.loopRaw { str := str, values := st.values ++ w.Bindings, i := st.i + 1 } rest

/-- The four loops of `genWhere` in sequence, from the freshly made fragment
array; the result is the state at the end of the last loop. -/
def genWhere.loops (o : QueryBuilder H V) : Option (genWhere.State V) :=
  let str := List.replicate
    (o.where_.length + o.whereIn.length + o.whereEncrypted.length + o.whereRaw.length) ""
  match genWhere.loopWhere { str := str, values := [], i := 0 } o.where_ with
  | none => none
  | some st1 =>
    let encKey :=
      if o.connection ≠ "" then mapGet o.myOrm.connectionEncKeys o.connection
      else mapGet o.myOrm.connectionEncKeys o.myOrm.defaultConnection
    match genWhere.loopEncrypted encKey st1 o.whereEncrypted with
    | none => none
    | some st2 =>
      match genWhere.loopIn st2 o.whereIn with
      | none => none
      | some st3 => genWhere.loopRaw st3 o.whereRaw

/-- Go `(o *QueryBuilder) genWhere`. -/
def QueryBuilder.genWhere (o : QueryBuilder H V) : Option (String × List V) :=
  match genWhere.loops o with
  | none => none
  | some st =>
    if st.str.length = 0 ∨ st.values.length = 0 then some ("", [])
    else some ("WHERE " ++ strings.Join st.str " AND ", st.values)

/-- Go `(o *QueryBuilder) genGroupBy`. -/
def QueryBuilder.genGroupBy (o : QueryBuilder H V) : String :=
  let str := strings.Join o.groupBy ", "
  if str = "" then "" else "group by " ++ str

/-- Go `(o *QueryBuilder) genOrderBy`. -/
def QueryBuilder.genOrderBy (o : QueryBuilder H V) : String :=
  let str := strings.Join o.orderBy ", "
  if str = "" then "" else "order by " ++ str

/-- Go `(o *QueryBuilder) genSelect`. -/
def QueryBuilder.genSelect (o : QueryBuilder H V) : String :=
  let selectArr :=
    if o.encryptedColumns.length > 0 then
      let encKey :=
        if o.connection ≠ "" then mapGet o.myOrm.connectionEncKeys o.connection
        else mapGet o.myOrm.connectionEncKeys o.myOrm.defaultConnection
      o.selectColumns.map fun col =>
        if ContainsStr o.encryptedColumns col then
          "AES_DECRYPT(" ++ col ++ ", '" ++ encKey ++ "') AS " ++ col
        else col
    else o.selectColumns
  let selects := strings.Join selectArr ", "
  if selects = "" then "SELECT *" else "SELECT " ++ selects

/-- Go `(o *QueryBuilder) genJoin`. -/
def QueryBuilder.genJoin (o : QueryBuilder H V) (joinType : String) : String :=
  let arr : List join :=
    if joinType = "LEFT" then o.leftJoin
    else if joinType = "RIGHT" then o.rightJoin
    else if joinType = "INNER" then o.innerJoin
    else if joinType = "FULL OUTER" then o.fullJoin
    else []
  let str := arr.map fun j =>
    joinType ++ " JOIN " ++ j.table ++ " ON " ++ j.column1 ++ " " ++ j.operator ++ " " ++ j.column2
  strings.Join str " "

/-- The step `if q != "" { queryArr = append(queryArr, q) }` of `genSearchQuery`. -/
def appendNonEmpty (queryArr : List String) (q : String) : List String :=
  if q ≠ "" then queryArr ++ [q] else queryArr

/-- Go `genSearchQuery`. -/
def genSearchQuery (o : QueryBuilder H V) : Option (String × List V) :=
  let queryArr : List String := []
  let queryArr := appendNonEmpty queryArr o.genSelect
  let queryArr := queryArr ++ ["FROM " ++ o.table]
  let queryArr := appendNonEmpty queryArr (o.genJoin "LEFT")
  let queryArr := appendNonEmpty queryArr (o.genJoin "RIGHT")
  let queryArr := appendNonEmpty queryArr (o.genJoin "INNER")
  let queryArr := appendNonEmpty queryArr (o.genJoin "FULL OUTER")
  match o.genWhere with
  | none => none
  | some (whereQ, bindings) =>
    let queryArr := appendNonEmpty queryArr whereQ
    let queryArr := appendNonEmpty queryArr o.genGroupBy
    let queryArr := appendNonEmpty queryArr o.genOrderBy
    some (strings.Join queryArr " ", bindings)

end Compiler

/-! ## Execution gateway: `Paginate` -/

section Gateway
variable {H V R E : Type}

/-- Go `int` and `int64` arithmetic (64 bits, two's complement): the result of
an operation wraps into `[-2^63, 2^63)`. -/
def wrap64 (x : Int) : Int := (x + 2 ^ 63) % 2 ^ 64 - 2 ^ 63

/-- Go `type Paginated struct`.  `Data` is the caller's sink `a`, of type `R`. -/
structure Paginated (R : Type) where
  Total : Int
  TotalPages : Int
  Page : Int
  PerPage : Int
  Data : R
deriving DecidableEq, Repr

/-- The database driver behind a handle: `Get` is the scalar fetch that
`Paginate` uses for the total, `Select` the row-set fetch into the sink.  Each
returns the fetched value or the driver's error. -/
structure Driver (H V R E : Type) where
  Get : H → String → List V → Except E Int
  Select : H → String → List V → Except E R

/-- Read of the Go map `connections`: `none` is the nil handle of an absent
name. -/
def handleOf (m : List (String × H)) (k : String) : Option H := m.lookup k

/-- The order in which the two goroutines of `Paginate` write the shared
variable `err`. -/
inductive Schedule where
  | countLegFirst
  | dataLegFirst
deriving DecidableEq, Repr

/-- The write of the count goroutine: `err = db.Get(&total, str, b...)`. -/
def Paginate.countLegWrite (getErr : Option E) (_err : Option E) : Option E := getErr

/-- The write of the data goroutine: `if e != nil { err = e }`. -/
def Paginate.dataLegWrite (e : Option E) (err : Option E) : Option E :=
  if e.isSome then e else err

/-- The value of `err` after `wg.Wait()`, from its initial nil. -/
def Paginate.errAfterWait (sched : Schedule) (getErr e : Option E) : Option E :=
  match sched with
  | .countLegFirst => Paginate.dataLegWrite e (Paginate.countLegWrite getErr none)
  | .dataLegFirst => Paginate.countLegWrite getErr (Paginate.dataLegWrite e none)

/-- What a call of `Paginate` that does not panic leaves behind: the builder
after the call, the two queries sent to the driver, and the returned pair. -/
structure Paginate.Run (H V R E : Type) where
  builder : QueryBuilder H V
  countQuery : String × List V
  dataQuery : String × List V
  envelope : Option (Paginated R)
  err : Option E

/-- Go `(o *QueryBuilder) Paginate`.  `a` is the content of the caller's sink
before the call; `none` is a run-time panic (out-of-range write, nil handle,
division by zero).  The writes to the query log are left out. -/
def QueryBuilder.Paginate (o : QueryBuilder H V) (drv : Driver H V R E) (sched : Schedule)
    (page perPage : Int) (a : R) : Option (Paginate.Run H V R E) :=
  let offset := wrap64 ((page - 1) * perPage)
  match genSearchQuery o with
  | none => none
  | some (queryString, bindings) =>
    let queryString :=
      queryString ++ " LIMIT " ++ toString perPage ++ " OFFSET " ++ toString offset
    let db :=
      if o.connection ≠ "" then handleOf o.myOrm.connections o.connection
      else handleOf o.myOrm.connections o.myOrm.defaultConnection
    -- count goroutine
    let o1 := { o with selectColumns := ["COUNT(*) OVER() AS total"] }
    match genSearchQuery o1 with
    | none => none
    | some (str, b) =>
      match db with
      | none => none
      | some h =>
        let total : Int := match drv.Get h str b with
          | .ok t => t
          | .error _ => 0
        let getErr : Option E := match drv.Get h str b with
          | .ok _ => none
          | .error x => some x
        -- data goroutine
        let a1 : R := match drv.Select h queryString bindings with
          | .ok rows => rows
          | .error _ => a
        let e : Option E := match drv.Select h queryString bindings with
          | .ok _ => none
          | .error x => some x
        let err := Paginate.errAfterWait sched getErr e
        if err.isSome then
          some { builder := o1, countQuery := (str, b), dataQuery := (queryString, bindings),
                 envelope := none, err := err }
        else if perPage = 0 then none
        else
          let totalPages := wrap64 (Int.tdiv total perPage)
          let remainder := Int.tmod total perPage
          let totalPages := if remainder ≠ 0 then wrap64 (totalPages + 1) else totalPages
          some { builder := o1, countQuery := (str, b), dataQuery := (queryString, bindings),
                 envelope := some { Total := total, Page := page, PerPage := perPage, Data := a1,
                                    TotalPages := totalPages },
                 err := none }

end Gateway

/-! ## Fragments of the WHERE clause, as the specification words them -/

section Fragments
variable {H V : Type}

/-- The fragment of a plain predicate: `<column> <operator> ?`. -/
def plainFragment (p : String × String × V) : String :=
  p.1 ++ " " ++ p.2.1 ++ " ?"

/-- The fragment of an encrypted predicate: `AES_DECRYPT(<column>, '<key>') <operator> ?`. -/
def encryptedFragment (key : String) (p : String × String × V) : String :=
  "AES_DECRYPT(" ++ p.1 ++ ", '" ++ key ++ "') " ++ p.2.1 ++ " ?"

/-- The fragment of an IN predicate: `<column> IN (?,...,?)` with one `?` per
value, and the empty string left in the slot of a predicate without values. -/
def inFragment (w : whereIn V) : String :=
  if w.values.length = 0 then ""
  else w.column ++ " IN (" ++ strings.Join (List.replicate w.values.length "?") "," ++ ")"

/-- The key resolved for a builder: the key registered under the connection
override when there is one, the default connection's key otherwise. -/
def resolvedKey (o : QueryBuilder H V) : String :=
  if o.connection = "" then mapGet o.myOrm.connectionEncKeys o.myOrm.defaultConnection
  else mapGet o.myOrm.connectionEncKeys o.connection

/-- All fragment slots of a builder in the fixed category order: plain,
encrypted, IN, raw. -/
def whereFragments (o : QueryBuilder H V) : List String :=
  o.where_.map plainFragment ++ o.whereEncrypted.map (encryptedFragment (resolvedKey o)) ++
    o.whereIn.map inFragment ++ o.whereRaw.map (fun w => w.RawQuery)

/-- All binding values of a builder in the fixed category order: plain,
encrypted, IN, raw; each category in registration order. -/
def whereBindings (o : QueryBuilder H V) : List V :=
  o.where_.map (fun p => p.2.2) ++ o.whereEncrypted.map (fun p => p.2.2) ++
    (o.whereIn.map (fun w => w.values)).flatten ++
    (o.whereRaw.map (fun w => w.Bindings)).flatten

end Fragments

/-! ## Sequences of clause-setting calls -/

section Calls
variable {H V : Type}

/-- One clause-setting call on a builder, with its arguments. -/
inductive Call (V : Type) where
  | Select (columns : List String)
  | EncryptedColumns (columns : List String)
  | LeftJoin (table column1 operator column2 : String)
  | RightJoin (table column1 operator column2 : String)
  | InnerJoin (table column1 operator column2 : String)
  | FullJoin (table column1 operator column2 : String)
  | Where (column operator : String) (value : V)
  | WhereRaw (query : String) (bindings : List V)
  | GroupBy (columns : List String)
  | OrderBy (columns : List String)
  | WhereEncrypted (column operator : String) (value : V)
  | WhereIn (column : String) (values : List V)
deriving DecidableEq, Repr

/-- The builder after one call; `none` when the call panics. -/
def Call.run [Inhabited V] (o : QueryBuilder H V) : Call V → Option (QueryBuilder H V)
  | .Select columns => some (o.Select columns)
  | .EncryptedColumns columns => some (o.EncryptedColumns columns)
  | .LeftJoin t c1 op c2 => some (o.LeftJoin t c1 op c2)
  | .RightJoin t c1 op c2 => some (o.RightJoin t c1 op c2)
  | .InnerJoin t c1 op c2 => some (o.InnerJoin t c1 op c2)
  | .FullJoin t c1 op c2 => some (o.FullJoin t c1 op c2)
  | .Where c op v => some (o.Where c op v)
  | .WhereRaw q bs => some (o.WhereRaw q bs)
  | .GroupBy columns => some (o.GroupBy columns)
  | .OrderBy columns => some (o.OrderBy columns)
  | .WhereEncrypted c op v => some (o.WhereEncrypted c op v)
  | .WhereIn c vs => o.WhereIn c vs

/-- The builder after a chain of calls, made in list order. -/
def runCalls [Inhabited V] : QueryBuilder H V → List (Call V) → Option (QueryBuilder H V)
  | o, [] => some o
  | o, c :: cs =>
    match c.run o with
    | none => none
    | some o1 => runCalls o1 cs

/-- The value a call registers as a plain predicate value. -/
def Call.plainValues : Call V → List V
  | .Where _ _ v => [v]
  | _ => []

/-- The value a call registers as an encrypted predicate value. -/
def Call.encryptedValues : Call V → List V
  | .WhereEncrypted _ _ v => [v]
  | _ => []

/-- The values a call registers in an IN predicate. -/
def Call.inValues : Call V → List V
  | .WhereIn _ vs => vs
  | _ => []

/-- The bindings a call registers with a raw fragment. -/
def Call.rawBindings : Call V → List V
  | .WhereRaw _ bs => bs
  | _ => []

/-- The join a call registers, when it is a join call of the given kind
(`LEFT`, `RIGHT`, `INNER` or `FULL OUTER`). -/
def Call.joinsOf (kind : String) : Call V → List join
  | .LeftJoin t c1 op c2 =>
    if kind = "LEFT" then [{ table := t, operator := op, column1 := c1, column2 := c2 }] else []
  | .RightJoin t c1 op c2 =>
    if kind = "RIGHT" then [{ table := t, operator := op, column1 := c1, column2 := c2 }] else []
  | .InnerJoin t c1 op c2 =>
    if kind = "INNER" then [{ table := t, operator := op, column1 := c1, column2 := c2 }] else []
  | .FullJoin t c1 op c2 =>
    if kind = "FULL OUTER" then [{ table := t, operator := op, column1 := c1, column2 := c2 }]
    else []
  | _ => []

/-- The number of `?` characters of a text. -/
def countQ (s : String) : Nat := s.toList.count '?'

end Calls

/-! ## Clauses of the compiled statement, as the specification words them -/

section Clauses
variable {H V : Type}

/-- One join of the given kind: `<KIND> JOIN <table> ON <column1> <operator> <column2>`. -/
def renderJoin (kind : String) (j : join) : String :=
  kind ++ " JOIN " ++ j.table ++ " ON " ++ j.column1 ++ " " ++ j.operator ++ " " ++ j.column2

/-- The rendered joins of a builder: all LEFT joins, then all RIGHT joins, then
all INNER joins, then all FULL OUTER joins, each kind in registration order. -/
def joinFragments (o : QueryBuilder H V) : List String :=
  o.leftJoin.map (renderJoin "LEFT") ++ o.rightJoin.map (renderJoin "RIGHT") ++
    o.innerJoin.map (renderJoin "INNER") ++ o.fullJoin.map (renderJoin "FULL OUTER")

/-- A clause as a list of clauses: absent when its text is empty. -/
def optClause (q : String) : List String :=
  if q ≠ "" then [q] else []

/-- A selected column as `genSelect` is specified to render it. -/
def renderColumn (encryptedColumns : List String) (key : String) (c : String) : String :=
  if c ∈ encryptedColumns then "AES_DECRYPT(" ++ c ++ ", '" ++ key ++ "') AS " ++ c else c

end Clauses

/-! ## Execution gateway: `Get` and `First` -/

section Fetch
variable {H V R E : Type}

/-- What a call of `Get` or `First` that does not panic leaves behind: the
query sent to the driver, the caller's sink and the returned error. -/
structure Fetch.Run (V R E : Type) where
  query : String × List V
  sink : R
  err : Option E

/-- Go `(o *QueryBuilder) Get`.  `a` is the content of the caller's sink
before the call; `none` is a run-time panic.  The write to the query log is
left out. -/
def QueryBuilder.Get (o : QueryBuilder H V) (drv : Driver H V R E) (a : R) :
    Option (Fetch.Run V R E) :=
  match genSearchQuery o with
  | none => none
  | some (queryString, bindings) =>
    let db :=
      if o.connection ≠ "" then handleOf o.myOrm.connections o.connection
      else handleOf o.myOrm.connections o.myOrm.defaultConnection
    match db with
    | none => none
    | some h =>
      match drv.Select h queryString bindings with
      | .ok rows => some { query := (queryString, bindings), sink := rows, err := none }
      | .error x => some { query := (queryString, bindings), sink := a, err := some x }

/-- Go `(o *QueryBuilder) First`.  `getRow` is the single-row fetch `db.Get`
into the caller's sink. -/
def QueryBuilder.First (o : QueryBuilder H V) (getRow : H → String → List V → Except E R)
    (a : R) : Option (Fetch.Run V R E) :=
  match genSearchQuery o with
  | none => none
  | some (queryString, bindings) =>
    let db :=
      if o.connection ≠ "" then handleOf o.myOrm.connections o.connection
      else handleOf o.myOrm.connections o.myOrm.defaultConnection
    match db with
    | none => none
    | some h =>
      match getRow h (queryString ++ " LIMIT 1") bindings with
      | .ok row => some { query := (queryString ++ " LIMIT 1", bindings), sink := row, err := none }
      | .error x => some { query := (queryString ++ " LIMIT 1", bindings), sink := a, err := some x }

end Fetch

/-! ## Execution gateway: `Insert`, `Update` and `Delete` -/

section Exec
variable {H V E : Type}

/-- What a call of `Insert` that does not panic leaves behind: the statement
sent to the driver and the returned pair. -/
structure Insert.Run (V E : Type) where
  query : String × List V
  id : Int
  err : Option E

/-- What a call of `Update` or `Delete` that does not panic leaves behind: the
statement sent to the driver and the returned error. -/
structure Exec.Run (V E : Type) where
  query : String × List V
  err : Option E

/-- The loop of `Insert` over the payload, in the order its entries are
iterated: `columnsArr[i] = key`, `valuesArr[i] = el`, `placeHolders[i] = ...`,
`i++`. -/
def Insert.loop (encryptedColumns : List String) (encKey : String) :
    List String → List V → List String → Nat → List (String × V) →
    Option (List String × List V × List String)
  | columnsArr, valuesArr, placeHolders, _, [] => some (columnsArr, valuesArr, placeHolders)
  | columnsArr, valuesArr, placeHolders, i, (key, el) :: rest =>
    match writeAt columnsArr i key with
    | none => none
    | some columnsArr1 =>
      match writeAt valuesArr i el with
      | none => none
      | some valuesArr1 =>
        let contains := ContainsStr encryptedColumns key
        match writeAt placeHolders i
            (if contains then "AES_ENCRYPT(?, '" ++ encKey ++ "')" else "?") with
        | none => none
        | some placeHolders1 =>
          Insert.loop encryptedColumns encKey columnsArr1 valuesArr1 placeHolders1 (i + 1) rest

/-- The statement and bindings that `Insert` builds before it executes them.
`data` is the payload in the order its entries are iterated. -/
def Insert.build [Inhabited V] (o : QueryBuilder H V) (data : List (String × V)) :
    Option (String × List V) :=
  let encKey :=
    if o.connection ≠ "" then mapGet o.myOrm.connectionEncKeys o.connection
    else mapGet o.myOrm.connectionEncKeys o.myOrm.defaultConnection
  match Insert.loop o.encryptedColumns encKey (List.replicate data.length "")
      (List.replicate data.length default) (List.replicate data.length "") 0 data with
  | none => none
  | some (columnsArr, valuesArr, placeHolders) =>
    some ("INSERT INTO " ++ o.table ++ " (" ++ strings.Join columnsArr ", " ++ ") VALUES (" ++
      strings.Join placeHolders "," ++ ")", valuesArr)

/-- Go `(o *QueryBuilder) Insert`.  `exec` is `db.Exec` followed by
`result.LastInsertId()`: the outer error is that of the execution, the inner
one that of the identifier.  `none` is a run-time panic. -/
def QueryBuilder.Insert [Inhabited V] (o : QueryBuilder H V)
    (exec : H → String → List V → Except E (Except E Int)) (data : List (String × V)) :
    Option (Insert.Run V E) :=
  let db :=
    if o.connection ≠ "" then handleOf o.myOrm.connections o.connection
    else handleOf o.myOrm.connections o.myOrm.defaultConnection
  match Insert.build o data with
  | none => none
  | some (insertString, valuesArr) =>
    match db with
    | none => none
    | some h =>
      match exec h insertString valuesArr with
      | .error err => some { query := (insertString, valuesArr), id := 0, err := some err }
      | .ok (.error err) => some { query := (insertString, valuesArr), id := 0, err := some err }
      | .ok (.ok id) => some { query := (insertString, valuesArr), id := id, err := none }

/-- The loop of `Update` over the payload, in the order its entries are
iterated: `columnsArr[i] = "<col> = ?"`, append the value, `i++`. -/
def Update.loop : List String → List V → Nat → List (String × V) →
    Option (List String × List V)
  | columnsArr, valuesArr, _, [] => some (columnsArr, valuesArr)
  | columnsArr, valuesArr, i, (col, value) :: rest =>
    match writeAt columnsArr i (col ++ " = ?") with
    | none => none
    | some columnsArr1 => Update.loop columnsArr1 (valuesArr ++ [value]) (i + 1) rest

/-- The statement and bindings that `Update` builds before it executes them. -/
def Update.build (o : QueryBuilder H V) (data : List (String × V)) : Option (String × List V) :=
  match Update.loop (List.replicate data.length "") [] 0 data with
  | none => none
  | some (columnsArr, valuesArr) =>
    match o.genWhere with
    | none => none
    | some (whereStr, bindings) =>
      some ("UPDATE " ++ o.table ++ " SET " ++ strings.Join columnsArr ", " ++ " " ++ whereStr,
        valuesArr ++ bindings)

/-- Go `(o *QueryBuilder) Update`; `exec` is `db.Exec`. -/
def QueryBuilder.Update (o : QueryBuilder H V)
    (exec : H → String → List V → Except E (Except E Int)) (data : List (String × V)) :
    Option (Exec.Run V E) :=
  match Update.build o data with
  | none => none
  | some (updateString, valuesArr) =>
    let db :=
      if o.connection ≠ "" then handleOf o.myOrm.connections o.connection
      else handleOf o.myOrm.connections o.myOrm.defaultConnection
    match db with
    | none => none
    | some h =>
      match exec h updateString valuesArr with
      | .error err => some { query := (updateString, valuesArr), err := some err }
      | .ok _ => some { query := (updateString, valuesArr), err := none }

/-- Go `(o *QueryBuilder) Delete`; `exec` is `db.Exec`. -/
def QueryBuilder.Delete (o : QueryBuilder H V)
    (exec : H → String → List V → Except E (Except E Int)) : Option (Exec.Run V E) :=
  match o.genWhere with
  | none => none
  | some (whereStr, bindings) =>
    let deleteStr := "DELETE FROM " ++ o.table ++ " " ++ whereStr
    let db :=
      if o.connection ≠ "" then handleOf o.myOrm.connections o.connection
      else handleOf o.myOrm.connections o.myOrm.defaultConnection
    match db with
    | none => none
    | some h =>
      match exec h deleteStr bindings with
      | .error err => some { query := (deleteStr, bindings), err := some err }
      | .ok _ => some { query := (deleteStr, bindings), err := none }

end Exec

/-! ## Connection registry -/

section Registry
variable {H : Type}

/-- Go `type DBConnection struct`. -/
structure DBConnection where
  DBUsername : String
  DBPassword : String
  DBProtocol : String
  DBAddress : String
  DBName : String
  DBDriver : String
  ConnectionName : String
  EncryptionKey : String
deriving DecidableEq, Repr

/-- Write `m[k] = v` into a Go map: the new entry is the one a later read of
`k` finds. -/
def mapSet {α : Type} (m : List (String × α)) (k : String) (v : α) : List (String × α) :=
  (k, v) :: m

/-- The loop of `DBInit` over the descriptors, `i` being the loop index.
`sqlxOpen driver dataSourceName` is `sqlx.Open`; `none` is the panic on its
error. -/
def DBInit.loop (sqlxOpen : String → String → Except String H) :
    MyOrm H → Nat → List DBConnection → Option (MyOrm H)
  | orm, _, [] => some orm
  | orm, i, con :: rest =>
    let dataSourceName := con.DBUsername ++ ":" ++ con.DBPassword ++ "@" ++ con.DBProtocol ++
      "(" ++ con.DBAddress ++ ")/" ++ con.DBName ++ "?parseTime=true"
    match sqlxOpen con.DBDriver dataSourceName with
    | .error _ => none
    | .ok db =>
      let orm1 := if i = 0 then { orm with defaultConnection := con.ConnectionName } else orm
      DBInit.loop sqlxOpen
        { orm1 with
          connectionNames := orm1.connectionNames ++ [con.ConnectionName]
          connections := mapSet orm1.connections con.ConnectionName db
          connectionEncKeys := mapSet orm1.connectionEncKeys con.ConnectionName con.EncryptionKey }
        (i + 1) rest

/-- Go `DBInit`. -/
def DBInit (sqlxOpen : String → String → Except String H) (cons : List DBConnection) :
    Option (MyOrm H) :=
  DBInit.loop sqlxOpen
    { connections := [], defaultConnection := "", connectionNames := [],
      connectionEncKeys := [], testMode := false, logQueries := false } 0 cons

/-- Go `(o *MyOrm) GetDBConnection`: the returned pair of handle (`none` is
nil) and error (`none` is nil). -/
def MyOrm.GetDBConnection (o : MyOrm H) (connectionName : String) : Option H × Option String :=
  if !ContainsStr o.connectionNames connectionName then
    (none, some "invalid connection specified")
  else (handleOf o.connections connectionName, none)

/-- Go `(o *QueryBuilder) Connection`; `none` is the panic. -/
def QueryBuilder.Connection {V : Type} (o : QueryBuilder H V) (connectionName : String) :
    Option (QueryBuilder H V) :=
  if ContainsStr o.myOrm.connectionNames connectionName then none
  else some { o with connection := connectionName }

end Registry

/-! ## What each clause-setting call registers -/

section CallEffects
variable {V : Type}

/-- The columns a call appends to the select list. -/
def Call.selects : Call V → List String
  | .Select columns => columns
  | _ => []

/-- The columns a call appends to the encrypted columns. -/
def Call.encryptedCols : Call V → List String
  | .EncryptedColumns columns => columns
  | _ => []

/-- The plain predicate a call appends. -/
def Call.wheres : Call V → List (String × String × V)
  | .Where c op v => [(c, op, v)]
  | _ => []

/-- The encrypted predicate a call appends. -/
def Call.encryptedWheres : Call V → List (String × String × V)
  | .WhereEncrypted c op v => [(c, op, v)]
  | _ => []

/-- The IN predicate a call appends. -/
def Call.ins : Call V → List (whereIn V)
  | .WhereIn c vs => [{ column := c, values := vs }]
  | _ => []

/-- The raw fragment a call appends. -/
def Call.raws : Call V → List (whereRawStruct V)
  | .WhereRaw q bs => [{ RawQuery := q, Bindings := bs }]
  | _ => []

/-- The columns a call appends to the group-by list. -/
def Call.groupBys : Call V → List String
  | .GroupBy columns => columns
  | _ => []

/-- The columns a call appends to the order-by list. -/
def Call.orderBys : Call V → List String
  | .OrderBy columns => columns
  | _ => []

end CallEffects

/-! ## Mock query builder -/

section Mock
variable {V R E : Type}

/-- Go `type MockQueryBuilderTemplate struct`: the six caller-supplied
functions.  A payload is the list of its entries; an `error` is `Option E`. -/
structure MockQueryBuilderTemplate (V R E : Type) where
  FuncInsert : List (String × V) → Int × Option E
  FuncUpdate : List (String × V) → Option E
  FuncDelete : Unit → Option E
  FuncPaginate : Int → Int → R → Option (Paginated R) × Option E
  FuncFirst : R → Option E
  FuncGet : R → Option E

/-- Go `(m MockQueryBuilderTemplate) Insert`. -/
def MockQueryBuilderTemplate.Insert (m : MockQueryBuilderTemplate V R E)
    (data : List (String × V)) : Int × Option E :=
  m.FuncInsert data

/-- Go `(m MockQueryBuilderTemplate) Update`. -/
def MockQueryBuilderTemplate.Update (m : MockQueryBuilderTemplate V R E)
    (data : List (String × V)) : Option E :=
  m.FuncUpdate data

/-- Go `(m MockQueryBuilderTemplate) Delete`, whose body is `return m.Delete()`.
The call is run with a bound `fuel` on the depth of nested calls; `none` is
the bound reached without a result. -/
def MockQueryBuilderTemplate.Delete (m : MockQueryBuilderTemplate V R E) :
    Nat → Option (Option E)
  | 0 => none
  | fuel + 1 => MockQueryBuilderTemplate.Delete m fuel

/-- Go `(m MockQueryBuilderTemplate) Paginate`, whose body is
`return m.Paginate(page, perPage, a)`; `fuel` as in `Delete`. -/
def MockQueryBuilderTemplate.Paginate (m : MockQueryBuilderTemplate V R E) (page perPage : Int)
    (a : R) : Nat → Option (Option (Paginated R) × Option E)
  | 0 => none
  | fuel + 1 => MockQueryBuilderTemplate.Paginate m page perPage a fuel

/-- Go `(m MockQueryBuilderTemplate) First`. -/
def MockQueryBuilderTemplate.First (m : MockQueryBuilderTemplate V R E) (a : R) : Option E :=
  m.FuncFirst a

/-- Go `(m MockQueryBuilderTemplate) Get`. -/
def MockQueryBuilderTemplate.Get (m : MockQueryBuilderTemplate V R E) (a : R) : Option E :=
  m.FuncGet a

/-- The non-terminal chain calls of the mock, one for each clause-setting call
and `Connection`: every one of them is `return m`. -/
def MockQueryBuilderTemplate.chain (m : MockQueryBuilderTemplate V R E) :
    Call V ⊕ String → MockQueryBuilderTemplate V R E
  | .inl (.Select _) => m
  | .inl (.EncryptedColumns _) => m
  | .inr _ => m
  | .inl (.LeftJoin _ _ _ _) => m
  | .inl (.RightJoin _ _ _ _) => m
  | .inl (.InnerJoin _ _ _ _) => m
  | .inl (.FullJoin _ _ _ _) => m
  | .inl (.Where _ _ _) => m
  | .inl (.WhereRaw _ _) => m
  | .inl (.GroupBy _) => m
  | .inl (.OrderBy _) => m
  | .inl (.WhereEncrypted _ _ _) => m
  | .inl (.WhereIn _ _) => m

end Mock

/-! ## Sample registry and builders -/

/-- A registry with one connection `main` whose key is `k1`. -/
def sampleOrm : MyOrm Unit :=
  { connections := [("main", ())], defaultConnection := "main", connectionNames := ["main"],
    connectionEncKeys := [("main", "k1")], testMode := false, logQueries := false }

/-- The chain `Where("a", "=", 1).WhereIn("b").WhereRaw("c = ?", 2)`. -/
def sampleEmptyInCalls : List (Call Nat) :=
  [.Where "a" "=" 1, .WhereIn "b" [], .WhereRaw "c = ?" [2]]

/-- A builder with one predicate of each category. -/
def sampleMixed : QueryBuilder Unit Nat :=
  { MyOrm.Table Nat sampleOrm "users" with
    where_ := [("a", "=", 1)], whereEncrypted := [("s", "=", 2)],
    whereIn := [⟨"b", [3, 4]⟩], whereRaw := [⟨"c = ? OR d = ?", [5, 6]⟩] }

/-- A builder with two plain predicates. -/
def samplePlain : QueryBuilder Unit Nat :=
  { MyOrm.Table Nat sampleOrm "users" with where_ := [("a", "=", 1), ("b", "<", 2)] }

/-- A builder selecting `id` and `secret`, the latter listed as encrypted,
grouped by `team` and ordered by `id`, with one left join and one plain
predicate. -/
def sampleSelect : QueryBuilder Unit Nat :=
  { MyOrm.Table Nat sampleOrm "users" with
    selectColumns := ["id", "secret"], encryptedColumns := ["secret"],
    leftJoin := [⟨"projects", "=", "users.id", "projects.user_id"⟩],
    where_ := [("a", "=", 1)], groupBy := ["team"], orderBy := ["id"] }

/-- A driver whose count query answers 25 and whose data query fails. -/
def sampleFailingData : Driver Unit Nat (List Nat) String :=
  { Get := fun _ _ _ => .ok 25, Select := fun _ _ _ => .error "data query failed" }

/-- A driver whose count query answers 25 and whose data query returns rows. -/
def sampleDriver : Driver Unit Nat (List Nat) String :=
  { Get := fun _ _ _ => .ok 25, Select := fun _ _ _ => .ok [1, 2, 3] }

/-- The descriptor of a connection `main` with key `k1`. -/
def sampleDescriptor : DBConnection :=
  { DBUsername := "u", DBPassword := "p", DBProtocol := "tcp", DBAddress := "localhost:3306",
    DBName := "app", DBDriver := "mysql", ConnectionName := "main", EncryptionKey := "k1" }

/-- An `sqlx.Open` that always succeeds. -/
def sampleOpen : String → String → Except String Unit := fun _ _ => .ok ()

/-- A builder on `users` with the column `secret` listed as encrypted and one
plain predicate. -/
def sampleWrite : QueryBuilder Unit Nat :=
  { MyOrm.Table Nat sampleOrm "users" with
    encryptedColumns := ["secret"], where_ := [("id", "=", 7)] }

/-- A `db.Exec` that succeeds with the identifier 1. -/
def sampleExec : Unit → String → List Nat → Except String (Except String Int) :=
  fun _ _ _ => .ok (.ok 1)

/-- A mock whose six functions all answer without an error. -/
def sampleMock : MockQueryBuilderTemplate Nat (List Nat) String :=
  { FuncInsert := fun _ => (1, none), FuncUpdate := fun _ => none, FuncDelete := fun _ => none,
    FuncPaginate := fun page perPage a =>
      (some { Total := 0, TotalPages := 0, Page := page, PerPage := perPage, Data := a }, none),
    FuncFirst := fun _ => none, FuncGet := fun _ => none }

/-- A builder on `users`, without a connection override, that lists `secret`
as encrypted, selects it and filters on it. -/
def sampleEncrypted : QueryBuilder Unit Nat :=
  { MyOrm.Table Nat sampleOrm "users" with
    selectColumns := ["secret"], encryptedColumns := ["secret"],
    whereEncrypted := [("secret", "=", 5)] }

/-- A driver whose count query answers 25 and whose data query fails with an
error that carries the text and the bindings it was sent. -/
def sampleEchoDriver : Driver Unit Nat (List Nat) (String × List Nat) :=
  { Get := fun _ _ _ => .ok 25, Select := fun _ q b => .error (q, b) }

/-! ## Lemmas on the library functions -/

theorem writeAt_append_cons {α : Type} (pre post : List α) (x v : α) :
    writeAt (pre ++ x :: post) pre.length v = some (pre ++ v :: post) := by
  simp [writeAt]

theorem writeAt_replicate {α : Type} (pre : List α) (z v : α) (n : Nat) :
    writeAt (pre ++ List.replicate (n + 1) z) pre.length v
      = some ((pre ++ [v]) ++ List.replicate n z) := by
  rw [List.replicate_succ, writeAt_append_cons]
  simp

theorem join3 (a b c sep : String) :
    strings.Join [a, b, c] sep = a ++ sep ++ b ++ sep ++ c := by
  simp [strings.Join, String.append_assoc]

theorem append_ne_empty_left (a b : String) (ha : a ≠ "") : a ++ b ≠ "" := by
  intro h
  apply ha
  have hd := congrArg String.data h
  rw [String.data_append] at hd
  exact String.ext (List.append_eq_nil.mp hd).1

theorem append_ne_empty_right (a b : String) (hb : b ≠ "") : a ++ b ≠ "" := by
  intro h
  apply hb
  have hd := congrArg String.data h
  rw [String.data_append] at hd
  exact String.ext (List.append_eq_nil.mp hd).2

theorem Join_ne_empty (sep : String) (l : List String) (hl : l ≠ []) (h : ∀ x ∈ l, x ≠ "") :
    strings.Join l sep ≠ "" := by
  cases l with
  | nil => exact absurd rfl hl
  | cons a l =>
    cases l with
    | nil => simpa [strings.Join] using h a (List.mem_cons_self _ _)
    | cons b l =>
      simp only [strings.Join]
      rw [String.append_assoc]
      exact append_ne_empty_left _ _ (h a (List.mem_cons_self _ _))

theorem Join_append (sep : String) (A B : List String) (hA : A ≠ []) (hB : B ≠ []) :
    strings.Join (A ++ B) sep = strings.Join A sep ++ sep ++ strings.Join B sep := by
  induction A with
  | nil => exact absurd rfl hA
  | cons a A ih =>
    cases A with
    | nil =>
      cases B with
      | nil => exact absurd rfl hB
      | cons b B => simp [strings.Join]
    | cons a1 A =>
      have h := ih (by simp)
      simp only [List.cons_append] at h ⊢
      simp only [strings.Join, h, String.append_assoc]

/-- Joining a list in which one element is itself a join with the same
separator of a list `B` is joining with `B` spliced in; an empty `B` whose
clause is dropped splices nothing. -/
theorem Join_splice (sep : String) (X B C : List String) (hX : X ≠ [])
    (hB : ∀ b ∈ B, b ≠ "") :
    strings.Join (X ++ optClause (strings.Join B sep) ++ C) sep
      = strings.Join (X ++ B ++ C) sep := by
  by_cases hBn : B = []
  · subst hBn
    simp [optClause, strings.Join]
  · have hne : strings.Join B sep ≠ "" := Join_ne_empty sep B hBn hB
    have hXB : strings.Join (X ++ [strings.Join B sep]) sep = strings.Join (X ++ B) sep := by
      rw [Join_append sep X _ hX (by simp), Join_append sep X B hX hBn]
      simp [strings.Join]
    simp only [optClause, hne, ne_eq, not_false_eq_true, if_true]
    by_cases hC : C = []
    · subst hC
      simpa using hXB
    · rw [Join_append sep (X ++ [strings.Join B sep]) C (by simp) hC,
        Join_append sep (X ++ B) C (by simp [hX]) hC, hXB]

/-! ## The loops of `genWhere` -/

section Loops
variable {H V : Type}

theorem loopWhere_eq (ps : List (String × String × V)) :
    ∀ (pre : List String) (vs : List V) (k : Nat),
      genWhere.loopWhere ⟨pre ++ List.replicate (ps.length + k) "", vs, pre.length⟩ ps
        = some ⟨pre ++ ps.map plainFragment ++ List.replicate k "",
                vs ++ ps.map (fun p => p.2.2), pre.length + ps.length⟩ := by
  induction ps with
  | nil => intro pre vs k; simp [genWhere.loopWhere]
  | cons p ps ih =>
    intro pre vs k
    have hlen : (p :: ps).length + k = (ps.length + k) + 1 := by simp; omega
    rw [hlen]
    simp only [genWhere.loopWhere]
    rw [writeAt_replicate]
    have h := ih (pre ++ [strings.Join [p.1, p.2.1, "?"] " "]) (vs ++ [p.2.2]) k
    simp only [List.length_append, List.length_singleton] at h
    simp only [h]
    simp [plainFragment, join3, String.append_assoc, Nat.add_assoc, Nat.add_comm 1]

theorem loopEncrypted_eq (key : String) (ps : List (String × String × V)) :
    ∀ (pre : List String) (vs : List V) (k : Nat),
      genWhere.loopEncrypted key ⟨pre ++ List.replicate (ps.length + k) "", vs, pre.length⟩ ps
        = some ⟨pre ++ ps.map (encryptedFragment key) ++ List.replicate k "",
                vs ++ ps.map (fun p => p.2.2), pre.length + ps.length⟩ := by
  induction ps with
  | nil => intro pre vs k; simp [genWhere.loopEncrypted]
  | cons p ps ih =>
    intro pre vs k
    have hlen : (p :: ps).length + k = (ps.length + k) + 1 := by simp; omega
    rw [hlen]
    simp only [genWhere.loopEncrypted]
    rw [writeAt_replicate]
    have h := ih (pre ++ [strings.Join ["AES_DECRYPT(" ++ p.1 ++ ", '" ++ key ++ "')", p.2.1, "?"] " "])
      (vs ++ [p.2.2]) k
    simp only [List.length_append, List.length_singleton] at h
    simp only [h]
    simp [encryptedFragment, join3, String.append_assoc, Nat.add_assoc, Nat.add_comm 1]

theorem loopQMarks_eq (vals : List V) :
    ∀ (pre : List String) (vs : List V) (k : Nat),
      genWhere.loopQMarks (pre ++ List.replicate (vals.length + k) "") vs pre.length vals
        = some (pre ++ List.replicate vals.length "?" ++ List.replicate k "", vs ++ vals) := by
  induction vals with
  | nil => intro pre vs k; simp [genWhere.loopQMarks]
  | cons v vals ih =>
    intro pre vs k
    have hlen : (v :: vals).length + k = (vals.length + k) + 1 := by simp; omega
    rw [hlen]
    simp only [genWhere.loopQMarks]
    rw [writeAt_replicate]
    have h := ih (pre ++ ["?"]) (vs ++ [v]) k
    simp only [List.length_append, List.length_singleton] at h
    simp only [h]
    simp [List.replicate_succ]

theorem loopQMarks_fresh (vals vs : List V) :
    genWhere.loopQMarks (List.replicate vals.length "") vs 0 vals
      = some (List.replicate vals.length "?", vs ++ vals) := by
  have h := loopQMarks_eq vals [] vs 0
  simpa using h

theorem loopIn_eq (ws : List (whereIn V)) :
    ∀ (pre : List String) (vs : List V) (k : Nat),
      genWhere.loopIn ⟨pre ++ List.replicate (ws.length + k) "", vs, pre.length⟩ ws
        = some ⟨pre ++ ws.map inFragment ++ List.replicate k "",
                vs ++ (ws.map (fun w => w.values)).flatten, pre.length + ws.length⟩ := by
  induction ws with
  | nil => intro pre vs k; simp [genWhere.loopIn]
  | cons w ws ih =>
    intro pre vs k
    have hlen : (w :: ws).length + k = (ws.length + k) + 1 := by simp; omega
    rw [hlen]
    simp only [genWhere.loopIn]
    by_cases hw : w.values.length = 0
    · have hnil : w.values = [] := List.length_eq_zero.mp hw
      have h := ih (pre ++ [""]) vs k
      simp only [List.length_append, List.length_singleton] at h
      have hstr : pre ++ List.replicate (ws.length + k + 1) ""
          = pre ++ [""] ++ List.replicate (ws.length + k) "" := by
        simp [List.replicate_succ]
      simp only [hw, if_true, hstr, h]
      simp [inFragment, hw, hnil, Nat.add_assoc, Nat.add_comm 1]
    · simp only [hw, if_false]
      rw [loopQMarks_fresh]
      simp only []
      rw [writeAt_replicate]
      have h := ih (pre ++ [w.column ++ " IN (" ++
        strings.Join (List.replicate w.values.length "?") "," ++ ")"]) (vs ++ w.values) k
      simp only [List.length_append, List.length_singleton] at h
      simp only [h]
      simp [inFragment, hw, Nat.add_assoc, Nat.add_comm 1]

theorem loopRaw_eq (ws : List (whereRawStruct V)) :
    ∀ (pre : List String) (vs : List V) (k : Nat),
      genWhere.loopRaw ⟨pre ++ List.replicate (ws.length + k) "", vs, pre.length⟩ ws
        = some ⟨pre ++ ws.map (fun w => w.RawQuery) ++ List.replicate k "",
                vs ++ (ws.map (fun w => w.Bindings)).flatten, pre.length + ws.length⟩ := by
  induction ws with
  | nil => intro pre vs k; simp [genWhere.loopRaw]
  | cons w ws ih =>
    intro pre vs k
    have hlen : (w :: ws).length + k = (ws.length + k) + 1 := by simp; omega
    rw [hlen]
    simp only [genWhere.loopRaw]
    rw [writeAt_replicate]
    have h := ih (pre ++ [w.RawQuery]) (vs ++ w.Bindings) k
    simp only [List.length_append, List.length_singleton] at h
    simp only [h]
    simp [Nat.add_assoc, Nat.add_comm 1]

/-- The state at the end of the four loops of `genWhere`: no write is out of
range, every slot holds its predicate's fragment, `values` holds all bindings
and `i` is the number of predicates. -/
theorem genWhere_loops_eq (o : QueryBuilder H V) :
    genWhere.loops o = some ⟨whereFragments o, whereBindings o,
      o.where_.length + o.whereEncrypted.length + o.whereIn.length + o.whereRaw.length⟩ := by
  unfold genWhere.loops
  have hn : o.where_.length + o.whereIn.length + o.whereEncrypted.length + o.whereRaw.length
      = o.where_.length + (o.whereEncrypted.length + (o.whereIn.length + (o.whereRaw.length + 0))) := by
    omega
  have hkey : (if o.connection ≠ "" then mapGet o.myOrm.connectionEncKeys o.connection
      else mapGet o.myOrm.connectionEncKeys o.myOrm.defaultConnection) = resolvedKey o := by
    unfold resolvedKey
    by_cases hc : o.connection = "" <;> simp [hc]
  have h1 := loopWhere_eq o.where_ [] []
    (o.whereEncrypted.length + (o.whereIn.length + (o.whereRaw.length + 0)))
  simp only [List.nil_append, List.length_nil, Nat.zero_add] at h1
  have h2 := loopEncrypted_eq (resolvedKey o) o.whereEncrypted (o.where_.map plainFragment)
    (o.where_.map (fun p => p.2.2)) (o.whereIn.length + (o.whereRaw.length + 0))
  simp only [List.length_map] at h2
  have h3 := loopIn_eq o.whereIn
    (o.where_.map plainFragment ++ o.whereEncrypted.map (encryptedFragment (resolvedKey o)))
    (o.where_.map (fun p => p.2.2) ++ o.whereEncrypted.map (fun p => p.2.2))
    (o.whereRaw.length + 0)
  simp only [List.length_map, List.length_append] at h3
  have h4 := loopRaw_eq o.whereRaw
    (o.where_.map plainFragment ++ o.whereEncrypted.map (encryptedFragment (resolvedKey o))
      ++ o.whereIn.map inFragment)
    (o.where_.map (fun p => p.2.2) ++ o.whereEncrypted.map (fun p => p.2.2)
      ++ (o.whereIn.map (fun w => w.values)).flatten) 0
  simp only [List.length_map, List.length_append] at h4
  simp only [hn, hkey, h1, h2, h3, h4]
  simp [whereFragments, whereBindings]

/-- The result of `genWhere`: it never panics; it is the empty text with no
binding when the predicates carry no binding, and else `WHERE ` followed by
all fragment slots joined by ` AND `, with all the bindings. -/
theorem genWhere_eq (o : QueryBuilder H V) :
    o.genWhere = some (if (whereBindings o).length = 0 then ("", [])
      else ("WHERE " ++ strings.Join (whereFragments o) " AND ", whereBindings o)) := by
  unfold QueryBuilder.genWhere
  rw [genWhere_loops_eq]
  simp only []
  by_cases hb : whereBindings o = []
  · simp [hb]
  · have hb0 : (whereBindings o).length ≠ 0 := fun h => hb (List.length_eq_zero.mp h)
    have hf : whereFragments o ≠ [] := by
      intro hf
      apply hb
      simp only [whereFragments, List.append_eq_nil, List.map_eq_nil_iff] at hf
      obtain ⟨⟨⟨h1, h2⟩, h3⟩, h4⟩ := hf
      simp [whereBindings, h1, h2, h3, h4]
    simp [hb, hb0, hf]

end Loops

/-! ## Chains of calls -/

section CallLemmas
variable {H V : Type}

theorem WhereIn_copy_eq (values : List V) (d : V) :
    ∀ (pre : List V) (k : Nat),
      WhereIn.copy (pre ++ List.replicate (values.length + k) d) pre.length values
        = some (pre ++ values ++ List.replicate k d) := by
  induction values with
  | nil => intro pre k; simp [WhereIn.copy]
  | cons v vs ih =>
    intro pre k
    have hlen : (v :: vs).length + k = (vs.length + k) + 1 := by simp; omega
    rw [hlen]
    simp only [WhereIn.copy]
    rw [writeAt_replicate]
    have h := ih (pre ++ [v]) k
    simp only [List.length_append, List.length_singleton] at h
    simp only [h]
    simp

/-- The call `WhereIn` never panics and appends one IN predicate holding the
values given. -/
theorem WhereIn_eq [Inhabited V] (o : QueryBuilder H V) (column : String) (values : List V) :
    o.WhereIn column values
      = some { o with whereIn := o.whereIn ++ [{ column := column, values := values }] } := by
  have h := WhereIn_copy_eq values (default : V) [] 0
  simp only [List.nil_append, List.length_nil, Nat.add_zero, List.replicate_zero,
    List.append_nil] at h
  simp [QueryBuilder.WhereIn, h]

/-- One clause-setting call never panics; each predicate category and each
join kind of the resulting builder is what the builder held before, followed
by what the call registered. -/
theorem Call.run_lists [Inhabited V] (c : Call V) (o : QueryBuilder H V) :
    ∃ o1, c.run o = some o1 ∧
      o1.where_.map (fun p => p.2.2) = o.where_.map (fun p => p.2.2) ++ c.plainValues ∧
      o1.whereEncrypted.map (fun p => p.2.2)
        = o.whereEncrypted.map (fun p => p.2.2) ++ c.encryptedValues ∧
      (o1.whereIn.map (fun w => w.values)).flatten
        = (o.whereIn.map (fun w => w.values)).flatten ++ c.inValues ∧
      (o1.whereRaw.map (fun w => w.Bindings)).flatten
        = (o.whereRaw.map (fun w => w.Bindings)).flatten ++ c.rawBindings ∧
      o1.leftJoin = o.leftJoin ++ c.joinsOf "LEFT" ∧
      o1.rightJoin = o.rightJoin ++ c.joinsOf "RIGHT" ∧
      o1.innerJoin = o.innerJoin ++ c.joinsOf "INNER" ∧
      o1.fullJoin = o.fullJoin ++ c.joinsOf "FULL OUTER" ∧
      o1.table = o.table ∧ o1.myOrm = o.myOrm := by
  cases c <;>
    simp [Call.run, WhereIn_eq, QueryBuilder.Select, QueryBuilder.EncryptedColumns,
      QueryBuilder.LeftJoin, QueryBuilder.RightJoin, QueryBuilder.InnerJoin,
      QueryBuilder.FullJoin, QueryBuilder.Where, QueryBuilder.WhereRaw, QueryBuilder.GroupBy,
      QueryBuilder.OrderBy, QueryBuilder.WhereEncrypted, Call.plainValues,
      Call.encryptedValues, Call.inValues, Call.rawBindings, Call.joinsOf]

/-- A chain of clause-setting calls never panics; each predicate category and
each join kind of the resulting builder is what the builder held before,
followed by what the calls of that category registered, in call order. -/
theorem runCalls_lists [Inhabited V] (cs : List (Call V)) :
    ∀ o : QueryBuilder H V, ∃ o1, runCalls o cs = some o1 ∧
      o1.where_.map (fun p => p.2.2) = o.where_.map (fun p => p.2.2) ++ cs.flatMap Call.plainValues ∧
      o1.whereEncrypted.map (fun p => p.2.2)
        = o.whereEncrypted.map (fun p => p.2.2) ++ cs.flatMap Call.encryptedValues ∧
      (o1.whereIn.map (fun w => w.values)).flatten
        = (o.whereIn.map (fun w => w.values)).flatten ++ cs.flatMap Call.inValues ∧
      (o1.whereRaw.map (fun w => w.Bindings)).flatten
        = (o.whereRaw.map (fun w => w.Bindings)).flatten ++ cs.flatMap Call.rawBindings ∧
      o1.leftJoin = o.leftJoin ++ cs.flatMap (Call.joinsOf "LEFT") ∧
      o1.rightJoin = o.rightJoin ++ cs.flatMap (Call.joinsOf "RIGHT") ∧
      o1.innerJoin = o.innerJoin ++ cs.flatMap (Call.joinsOf "INNER") ∧
      o1.fullJoin = o.fullJoin ++ cs.flatMap (Call.joinsOf "FULL OUTER") ∧
      o1.table = o.table ∧ o1.myOrm = o.myOrm := by
  induction cs with
  | nil => intro o; exact ⟨o, by simp [runCalls]⟩
  | cons c cs ih =>
    intro o
    obtain ⟨o1, h, h1, h2, h3, h4, h5, h6, h7, h8, h9, h10⟩ := Call.run_lists c o
    obtain ⟨o2, g, g1, g2, g3, g4, g5, g6, g7, g8, g9, g10⟩ := ih o1
    refine ⟨o2, by simp [runCalls, h, g], ?_⟩
    simp only [List.flatMap_cons, g1, g2, g3, g4, g5, g6, g7, g8, g9, g10,
      h1, h2, h3, h4, h5, h6, h7, h8, h9, h10, List.append_assoc, and_self]

end CallLemmas

/-! ## Counting placeholders -/

section Counting
variable {H V : Type}

theorem countQ_append (a b : String) : countQ (a ++ b) = countQ a + countQ b := by
  simp [countQ, String.data_append, List.count_append]

theorem countQ_join (sep : String) (hsep : countQ sep = 0) (l : List String) :
    countQ (strings.Join l sep) = (l.map countQ).sum := by
  induction l with
  | nil => simp [strings.Join, countQ]
  | cons a l ih =>
    cases l with
    | nil => simp [strings.Join]
    | cons b l =>
      simp only [strings.Join, countQ_append, hsep, ih]
      simp

theorem countQ_join_qMarks (n : Nat) :
    countQ (strings.Join (List.replicate n "?") ",") = n := by
  rw [countQ_join "," (by decide)]
  induction n with
  | zero => simp
  | succ n ih =>
    simp only [List.replicate_succ, List.map_cons, List.sum_cons, ih]
    have : countQ "?" = 1 := by decide
    omega

theorem countQ_inFragment (w : whereIn V) (hc : countQ w.column = 0) :
    countQ (inFragment w) = w.values.length := by
  unfold inFragment
  by_cases h : w.values.length = 0
  · simp [h, countQ]
  · simp only [h, if_false, countQ_append, countQ_join_qMarks, hc]
    have h1 : countQ " IN (" = 0 := by decide
    have h2 : countQ ")" = 0 := by decide
    omega

theorem countQ_mapGet (m : List (String × String)) (hm : ∀ kv ∈ m, countQ kv.2 = 0)
    (k : String) : countQ (mapGet m k) = 0 := by
  unfold mapGet
  induction m with
  | nil => simp [List.lookup, countQ]
  | cons kv m ih =>
    obtain ⟨k1, v1⟩ := kv
    simp only [List.lookup]
    by_cases hk : k == k1
    · simp only [hk]
      exact hm (k1, v1) (List.mem_cons_self _ _)
    · simp only [hk]
      exact ih (fun kv hkv => hm kv (List.mem_cons_of_mem _ hkv))

theorem sum_map_eq_length {α : Type} (f : α → Nat) (l : List α) (h : ∀ x ∈ l, f x = 1) :
    (l.map f).sum = l.length := by
  induction l with
  | nil => simp
  | cons a l ih =>
    simp only [List.map_cons, List.sum_cons, List.length_cons]
    rw [h a (List.mem_cons_self _ _), ih (fun x hx => h x (List.mem_cons_of_mem _ hx))]
    omega

theorem sum_map_eq_length_flatten {α β : Type} (f : α → Nat) (g : α → List β) (l : List α)
    (h : ∀ x ∈ l, f x = (g x).length) : (l.map f).sum = (l.map g).flatten.length := by
  induction l with
  | nil => simp
  | cons a l ih =>
    simp only [List.map_cons, List.sum_cons, List.flatten_cons, List.length_append]
    rw [h a (List.mem_cons_self _ _), ih (fun x hx => h x (List.mem_cons_of_mem _ hx))]

end Counting

/-! ## The WHERE clause -/

section WhereClause
variable {H V : Type}

/-- The bindings `genWhere` returns are all the binding values of the builder. -/
theorem genWhere_bindings (o : QueryBuilder H V) :
    ∃ text, o.genWhere = some (text, whereBindings o) := by
  rw [genWhere_eq]
  by_cases hb : (whereBindings o).length = 0
  · rw [if_pos hb, List.length_eq_zero.mp hb]
    exact ⟨"", rfl⟩
  · rw [if_neg hb]
    exact ⟨_, rfl⟩

/-- The bindings `genSearchQuery` returns are those of `genWhere`. -/
theorem genSearchQuery_bindings (o : QueryBuilder H V) :
    ∃ text, genSearchQuery o = some (text, whereBindings o) := by
  obtain ⟨t, ht⟩ := genWhere_bindings o
  simp [genSearchQuery, ht]

/-- C1 (the code at the failing input): with `Where("a", "=", 1)`, then an IN
predicate on `b` without values, then `WhereRaw("c = ?", 2)`, `genWhere`
returns a text holding an empty fragment between two ` AND ` separators. -/
theorem C1_genWhere_empty_in_doubles_and :
    (runCalls (MyOrm.Table Nat sampleOrm "t") sampleEmptyInCalls).map QueryBuilder.genWhere
      = some (some ("WHERE a = ? AND  AND c = ?", [1, 2])) := by
  decide

/-- C2: for every chain of clause-setting calls on a fresh builder, in whatever
interleaving, the chain yields a builder, and the bindings returned by
`genWhere` and by `genSearchQuery` are the plain predicate values, then the
encrypted predicate values, then the values of each IN predicate, then the
bindings of each raw fragment, each category in call order. -/
theorem C2_bindings_category_order [Inhabited V] (orm : MyOrm H) (table : String)
    (calls : List (Call V)) :
    ∃ o whereText queryText,
      runCalls (MyOrm.Table V orm table) calls = some o ∧
      o.genWhere = some (whereText,
        calls.flatMap Call.plainValues ++ calls.flatMap Call.encryptedValues ++
          calls.flatMap Call.inValues ++ calls.flatMap Call.rawBindings) ∧
      genSearchQuery o = some (queryText,
        calls.flatMap Call.plainValues ++ calls.flatMap Call.encryptedValues ++
          calls.flatMap Call.inValues ++ calls.flatMap Call.rawBindings) := by
  obtain ⟨o, h, h1, h2, h3, h4, -⟩ := runCalls_lists calls (MyOrm.Table V orm table)
  obtain ⟨wt, hw⟩ := genWhere_bindings o
  obtain ⟨qt, hq⟩ := genSearchQuery_bindings o
  have hb : whereBindings o = calls.flatMap Call.plainValues ++
      calls.flatMap Call.encryptedValues ++ calls.flatMap Call.inValues ++
      calls.flatMap Call.rawBindings := by
    simp only [whereBindings, h1, h2, h3, h4]
    simp [MyOrm.Table]
  rw [hb] at hw hq
  exact ⟨o, wt, qt, h, hw, hq⟩

/-- C3: when no column name, operator or registered encryption key holds a `?`
and every raw fragment holds as many `?` as it carries bindings, the text
returned by `genWhere` holds as many `?` as there are bindings returned; and a
builder whose only predicate is an IN predicate with k values gets k
placeholders and those k values as bindings. -/
theorem C3_placeholders_match_bindings (o : QueryBuilder H V)
    (hplain : ∀ p ∈ o.where_, countQ p.1 = 0 ∧ countQ p.2.1 = 0)
    (henc : ∀ p ∈ o.whereEncrypted, countQ p.1 = 0 ∧ countQ p.2.1 = 0)
    (hin : ∀ w ∈ o.whereIn, countQ w.column = 0)
    (hkey : ∀ kv ∈ o.myOrm.connectionEncKeys, countQ kv.2 = 0)
    (hraw : ∀ w ∈ o.whereRaw, countQ w.RawQuery = w.Bindings.length) :
    (∃ text bindings, o.genWhere = some (text, bindings) ∧ countQ text = bindings.length) ∧
    (∀ w ∈ o.whereIn, ∃ text,
      QueryBuilder.genWhere { MyOrm.Table V o.myOrm o.table with whereIn := [w] }
        = some (text, w.values) ∧ countQ text = w.values.length) := by
  have hq : countQ " ?" = 1 := by decide
  have hs : countQ " " = 0 := by decide
  have hin1 : ∀ w : whereIn V, countQ w.column = 0 →
      (List.map countQ (whereFragments
        ({ MyOrm.Table V o.myOrm o.table with whereIn := [w] } : QueryBuilder H V))).sum
        = w.values.length := by
    intro w hw
    simp [whereFragments, MyOrm.Table, countQ_inFragment w hw]
  constructor
  · rw [genWhere_eq]
    by_cases hb : (whereBindings o).length = 0
    · rw [if_pos hb]
      exact ⟨"", [], rfl, rfl⟩
    · rw [if_neg hb]
      refine ⟨_, _, rfl, ?_⟩
      rw [countQ_append, countQ_join " AND " (by decide)]
      have hW : countQ "WHERE " = 0 := by decide
      rw [hW, Nat.zero_add]
      simp only [whereFragments, whereBindings, List.map_append, List.sum_append,
        List.length_append, List.map_map, List.length_map]
      have e1 : (List.map (countQ ∘ plainFragment) o.where_).sum = o.where_.length := by
        apply sum_map_eq_length
        intro p hp
        obtain ⟨a, b⟩ := hplain p hp
        simp only [Function.comp, plainFragment, countQ_append, a, b, hq, hs]
      have e2 : (List.map (countQ ∘ encryptedFragment (resolvedKey o)) o.whereEncrypted).sum
          = o.whereEncrypted.length := by
        apply sum_map_eq_length
        intro p hp
        obtain ⟨a, b⟩ := henc p hp
        have hk : countQ (resolvedKey o) = 0 := by
          unfold resolvedKey
          by_cases hc : o.connection = "" <;> simp only [hc, if_true, if_false] <;>
            exact countQ_mapGet _ hkey _
        have c1 : countQ "AES_DECRYPT(" = 0 := by decide
        have c2 : countQ ", '" = 0 := by decide
        have c3 : countQ "') " = 0 := by decide
        simp only [Function.comp, encryptedFragment, countQ_append, a, b, hq, hk, c1, c2, c3]
      have e3 : (List.map (countQ ∘ inFragment) o.whereIn).sum
          = (List.map (fun w => w.values) o.whereIn).flatten.length := by
        apply sum_map_eq_length_flatten
        intro w hw
        exact countQ_inFragment w (hin w hw)
      have e4 : (List.map (countQ ∘ fun w => w.RawQuery) o.whereRaw).sum
          = (List.map (fun w => w.Bindings) o.whereRaw).flatten.length := by
        apply sum_map_eq_length_flatten
        intro w hw
        exact hraw w hw
      rw [e1, e2, e3, e4]
  · intro w hw
    rw [genWhere_eq]
    have hbw : whereBindings
        ({ MyOrm.Table V o.myOrm o.table with whereIn := [w] } : QueryBuilder H V)
        = w.values := by
      simp [whereBindings, MyOrm.Table]
    rw [hbw]
    by_cases hb : w.values.length = 0
    · rw [if_pos hb, List.length_eq_zero.mp hb]
      exact ⟨"", rfl, rfl⟩
    · rw [if_neg hb]
      refine ⟨_, rfl, ?_⟩
      rw [countQ_append, countQ_join " AND " (by decide), hin1 w (hin w hw)]
      have hW : countQ "WHERE " = 0 := by decide
      omega

/-- C3 at a builder with one predicate of each category. -/
theorem C3_placeholders_match_bindings_witness :
    (∃ text bindings, sampleMixed.genWhere = some (text, bindings) ∧
      countQ text = bindings.length) ∧
    (∀ w ∈ sampleMixed.whereIn, ∃ text,
      QueryBuilder.genWhere
        { MyOrm.Table Nat sampleMixed.myOrm sampleMixed.table with whereIn := [w] }
        = some (text, w.values) ∧ countQ text = w.values.length) :=
  C3_placeholders_match_bindings sampleMixed (by decide) (by decide) (by decide) (by decide)
    (by decide)

/-- C4: `genWhere` returns the empty text with no binding exactly when the
predicates of the builder carry no binding value; so it does for a builder
without predicates, and for a builder whose only predicates are IN predicates
without values and raw fragments without bindings. -/
theorem C4_where_omitted_iff_no_bindings (o : QueryBuilder H V) :
    ∃ text bindings, o.genWhere = some (text, bindings) ∧
      ((text = "" ∧ bindings = []) ↔ whereBindings o = []) ∧
      ((o.where_ = [] ∧ o.whereEncrypted = [] ∧ o.whereIn = [] ∧ o.whereRaw = []) →
        text = "" ∧ bindings = []) ∧
      ((o.where_ = [] ∧ o.whereEncrypted = [] ∧ (∀ w ∈ o.whereIn, w.values = []) ∧
          (∀ w ∈ o.whereRaw, w.Bindings = [])) → text = "" ∧ bindings = []) := by
  have hgen : (o.where_ = [] ∧ o.whereEncrypted = [] ∧ (∀ w ∈ o.whereIn, w.values = []) ∧
      (∀ w ∈ o.whereRaw, w.Bindings = [])) → whereBindings o = [] := by
    rintro ⟨h1, h2, h3, h4⟩
    simp only [whereBindings, h1, h2, List.map_nil, List.nil_append, List.append_eq_nil,
      List.flatten_eq_nil_iff, List.mem_map]
    constructor
    · rintro l ⟨w, hw, rfl⟩
      exact h3 w hw
    · rintro l ⟨w, hw, rfl⟩
      exact h4 w hw
  have hzero : (o.where_ = [] ∧ o.whereEncrypted = [] ∧ o.whereIn = [] ∧ o.whereRaw = []) →
      whereBindings o = [] := by
    rintro ⟨h1, h2, h3, h4⟩
    simp [whereBindings, h1, h2, h3, h4]
  rw [genWhere_eq]
  by_cases hb : (whereBindings o).length = 0
  · rw [if_pos hb]
    have hb1 := List.length_eq_zero.mp hb
    exact ⟨"", [], rfl, by simp [hb1], fun _ => ⟨rfl, rfl⟩, fun _ => ⟨rfl, rfl⟩⟩
  · rw [if_neg hb]
    have hb1 : whereBindings o ≠ [] := fun h => hb (by simp [h])
    refine ⟨_, _, rfl, ?_, ?_, ?_⟩
    · constructor
      · rintro ⟨-, h⟩
        exact absurd h hb1
      · intro h
        exact absurd h hb1
    · intro h
      exact absurd (hzero h) hb1
    · intro h
      exact absurd (hgen h) hb1

/-- C5: for a builder with at least one plain predicate and no encrypted, IN
or raw predicate, `genWhere` returns `WHERE ` followed by the fragments
`<column> <operator> ?` in registration order joined by ` AND `, and the
predicate values in registration order; after a single `Where(col, op, value)`
on a fresh builder the text is `WHERE <col> <op> ?` and the bindings `[value]`. -/
theorem C5_plain_predicates_only (o : QueryBuilder H V)
    (hn : 1 ≤ o.where_.length) (henc : o.whereEncrypted = []) (hin : o.whereIn = [])
    (hraw : o.whereRaw = []) :
    o.genWhere = some
      ("WHERE " ++ strings.Join (o.where_.map fun p => p.1 ++ " " ++ p.2.1 ++ " ?") " AND ",
        o.where_.map fun p => p.2.2) ∧
    ∀ (orm : MyOrm H) (table col op : String) (value : V),
      ((MyOrm.Table V orm table).Where col op value).genWhere
        = some ("WHERE " ++ col ++ " " ++ op ++ " ?", [value]) := by
  constructor
  · rw [genWhere_eq]
    have hb : whereBindings o = o.where_.map fun p => p.2.2 := by
      simp [whereBindings, henc, hin, hraw]
    have hf : whereFragments o = o.where_.map fun p => p.1 ++ " " ++ p.2.1 ++ " ?" := by
      simp only [whereFragments, henc, hin, hraw, List.map_nil, List.append_nil]
      rfl
    rw [hb, hf, List.length_map, if_neg (by omega)]
  · intro orm table col op value
    rw [genWhere_eq]
    simp [whereBindings, whereFragments, MyOrm.Table, QueryBuilder.Where, strings.Join,
      plainFragment, String.append_assoc]

/-- C5 at a builder with the two predicates `a = 1` and `b < 2`. -/
theorem C5_plain_predicates_only_witness :
    samplePlain.genWhere = some ("WHERE a = ? AND b < ?", [1, 2]) :=
  (C5_plain_predicates_only samplePlain (by decide) (by decide) (by decide) (by decide)).1

end WhereClause

/-! ## The compiled statement -/

section Statement
variable {H V : Type}

theorem renderJoin_ne_empty (kind : String) (j : join) : renderJoin kind j ≠ "" := by
  unfold renderJoin
  iterate 7 apply append_ne_empty_left
  exact append_ne_empty_right kind " JOIN " (by decide)

theorem genJoin_eq (o : QueryBuilder H V) :
    o.genJoin "LEFT" = strings.Join (o.leftJoin.map (renderJoin "LEFT")) " " ∧
    o.genJoin "RIGHT" = strings.Join (o.rightJoin.map (renderJoin "RIGHT")) " " ∧
    o.genJoin "INNER" = strings.Join (o.innerJoin.map (renderJoin "INNER")) " " ∧
    o.genJoin "FULL OUTER" = strings.Join (o.fullJoin.map (renderJoin "FULL OUTER")) " " := by
  refine ⟨?_, ?_, ?_, ?_⟩ <;> simp [QueryBuilder.genJoin] <;> rfl

theorem genSelect_ne_empty (o : QueryBuilder H V) : o.genSelect ≠ "" := by
  have h : ∀ s : String, (if s = "" then "SELECT *" else "SELECT " ++ s) ≠ "" := by
    intro s
    by_cases hs : s = ""
    · rw [if_pos hs]; decide
    · rw [if_neg hs]; exact append_ne_empty_left "SELECT " s (by decide)
  exact h _

theorem appendNonEmpty_eq (X : List String) (q : String) :
    appendNonEmpty X q = X ++ optClause q := by
  unfold appendNonEmpty optClause
  split <;> simp

/-- The text and bindings of `genSearchQuery`, clause by clause. -/
theorem genSearchQuery_eq (o : QueryBuilder H V) (w : String) (b : List V)
    (hw : o.genWhere = some (w, b)) :
    genSearchQuery o = some (strings.Join ([o.genSelect, "FROM " ++ o.table] ++ joinFragments o ++
      (optClause w ++ optClause o.genGroupBy ++ optClause o.genOrderBy)) " ", b) := by
  obtain ⟨hL, hR, hI, hF⟩ := genJoin_eq o
  have hsel : optClause o.genSelect = [o.genSelect] := by
    simp [optClause, genSelect_ne_empty o]
  have hne : ∀ (kind : String) (js : List join), ∀ x ∈ js.map (renderJoin kind), x ≠ "" := by
    intro kind js x hx
    obtain ⟨j, -, rfl⟩ := List.mem_map.mp hx
    exact renderJoin_ne_empty kind j
  unfold genSearchQuery
  simp only [hw, appendNonEmpty_eq, hsel, hL, hR, hI, hF, List.nil_append]
  congr 2
  have e : [o.genSelect] ++ ["FROM " ++ o.table] = [o.genSelect, "FROM " ++ o.table] := rfl
  rw [e]
  generalize hA : [o.genSelect, "FROM " ++ o.table] = A
  have hA0 : A ≠ [] := by rw [← hA]; simp
  unfold joinFragments
  generalize hLf : o.leftJoin.map (renderJoin "LEFT") = Lf
  generalize hRf : o.rightJoin.map (renderJoin "RIGHT") = Rf
  generalize hIf : o.innerJoin.map (renderJoin "INNER") = If
  generalize hFf : o.fullJoin.map (renderJoin "FULL OUTER") = Ff
  have nL : ∀ x ∈ Lf, x ≠ "" := by rw [← hLf]; exact hne _ _
  have nR : ∀ x ∈ Rf, x ≠ "" := by rw [← hRf]; exact hne _ _
  have nI : ∀ x ∈ If, x ≠ "" := by rw [← hIf]; exact hne _ _
  have nF : ∀ x ∈ Ff, x ≠ "" := by rw [← hFf]; exact hne _ _
  have key : ∀ T : List String,
      strings.Join (A ++ optClause (strings.Join Lf " ") ++ optClause (strings.Join Rf " ") ++
          optClause (strings.Join If " ") ++ optClause (strings.Join Ff " ") ++ T) " "
        = strings.Join (A ++ (Lf ++ Rf ++ If ++ Ff) ++ T) " " := by
    intro T
    calc strings.Join (A ++ optClause (strings.Join Lf " ") ++ optClause (strings.Join Rf " ") ++
            optClause (strings.Join If " ") ++ optClause (strings.Join Ff " ") ++ T) " "
        = strings.Join (A ++ optClause (strings.Join Lf " ") ++
            (optClause (strings.Join Rf " ") ++ (optClause (strings.Join If " ") ++
              (optClause (strings.Join Ff " ") ++ T)))) " " := by
          simp only [List.append_assoc]
      _ = strings.Join (A ++ Lf ++ (optClause (strings.Join Rf " ") ++
            (optClause (strings.Join If " ") ++ (optClause (strings.Join Ff " ") ++ T)))) " " :=
          Join_splice " " A Lf _ hA0 nL
      _ = strings.Join ((A ++ Lf) ++ optClause (strings.Join Rf " ") ++
            (optClause (strings.Join If " ") ++ (optClause (strings.Join Ff " ") ++ T))) " " := by
          simp only [List.append_assoc]
      _ = strings.Join ((A ++ Lf) ++ Rf ++
            (optClause (strings.Join If " ") ++ (optClause (strings.Join Ff " ") ++ T))) " " :=
          Join_splice " " (A ++ Lf) Rf _ (by simp [hA0]) nR
      _ = strings.Join ((A ++ Lf ++ Rf) ++ optClause (strings.Join If " ") ++
            (optClause (strings.Join Ff " ") ++ T)) " " := by
          simp only [List.append_assoc]
      _ = strings.Join ((A ++ Lf ++ Rf) ++ If ++ (optClause (strings.Join Ff " ") ++ T)) " " :=
          Join_splice " " (A ++ Lf ++ Rf) If _ (by simp [hA0]) nI
      _ = strings.Join ((A ++ Lf ++ Rf ++ If) ++ optClause (strings.Join Ff " ") ++ T) " " := by
          simp only [List.append_assoc]
      _ = strings.Join ((A ++ Lf ++ Rf ++ If) ++ Ff ++ T) " " :=
          Join_splice " " (A ++ Lf ++ Rf ++ If) Ff _ (by simp [hA0]) nF
      _ = strings.Join (A ++ (Lf ++ Rf ++ If ++ Ff) ++ T) " " := by
          simp only [List.append_assoc]
  have h := key (optClause w ++ optClause o.genGroupBy ++ optClause o.genOrderBy)
  simp only [List.append_assoc] at h ⊢
  exact h

theorem ContainsStr_iff (haystack : List String) (needle : String) :
    ContainsStr haystack needle = true ↔ needle ∈ haystack := by
  induction haystack with
  | nil => simp [ContainsStr]
  | cons el rest ih =>
    simp only [ContainsStr, List.mem_cons]
    by_cases h : el = needle
    · simp [h]
    · have h1 : ¬ needle = el := fun e => h e.symm
      simp [h, h1, ih]

theorem renderColumn_ne_empty (cols : List String) (key c : String) (hc : c ≠ "") :
    renderColumn cols key c ≠ "" := by
  unfold renderColumn
  by_cases h : c ∈ cols
  · rw [if_pos h]
    exact append_ne_empty_right _ _ hc
  · rw [if_neg h]
    exact hc

/-- C6: for every chain of clause-setting calls on a fresh builder, whatever
the order of its join calls, the text compiled by `genSearchQuery` is the
`SELECT` and `FROM` clauses, then all LEFT joins, then all RIGHT joins, then
all INNER joins, then all FULL OUTER joins, each rendered as
`<KIND> JOIN <table> ON <column1> <operator> <column2>` and each kind in call
order, then the remaining clauses, everything joined by single spaces. -/
theorem C6_join_order [Inhabited V] (orm : MyOrm H) (table : String) (calls : List (Call V)) :
    ∃ o whereQ bindings,
      runCalls (MyOrm.Table V orm table) calls = some o ∧
      o.genWhere = some (whereQ, bindings) ∧
      genSearchQuery o = some (strings.Join
        ([o.genSelect, "FROM " ++ table] ++
          ((calls.flatMap (Call.joinsOf "LEFT")).map (fun j => "LEFT JOIN " ++ j.table ++
              " ON " ++ j.column1 ++ " " ++ j.operator ++ " " ++ j.column2) ++
            (calls.flatMap (Call.joinsOf "RIGHT")).map (fun j => "RIGHT JOIN " ++ j.table ++
              " ON " ++ j.column1 ++ " " ++ j.operator ++ " " ++ j.column2) ++
            (calls.flatMap (Call.joinsOf "INNER")).map (fun j => "INNER JOIN " ++ j.table ++
              " ON " ++ j.column1 ++ " " ++ j.operator ++ " " ++ j.column2) ++
            (calls.flatMap (Call.joinsOf "FULL OUTER")).map (fun j => "FULL OUTER JOIN " ++
              j.table ++ " ON " ++ j.column1 ++ " " ++ j.operator ++ " " ++ j.column2)) ++
          (optClause whereQ ++ optClause o.genGroupBy ++ optClause o.genOrderBy)) " ",
        bindings) := by
  obtain ⟨o, h, -, -, -, -, h5, h6, h7, h8, h9, -⟩ := runCalls_lists calls (MyOrm.Table V orm table)
  obtain ⟨w, hw⟩ := genWhere_bindings o
  refine ⟨o, w, _, h, hw, ?_⟩
  rw [genSearchQuery_eq o w _ hw]
  have ht : o.table = table := by rw [h9]; rfl
  have e : ∀ (kind : String) (js : List join),
      js.map (renderJoin kind) = js.map (fun j => (kind ++ " JOIN ") ++ j.table ++
        " ON " ++ j.column1 ++ " " ++ j.operator ++ " " ++ j.column2) := fun _ _ => rfl
  have c1 : "LEFT" ++ " JOIN " = "LEFT JOIN " := by decide
  have c2 : "RIGHT" ++ " JOIN " = "RIGHT JOIN " := by decide
  have c3 : "INNER" ++ " JOIN " = "INNER JOIN " := by decide
  have c4 : "FULL OUTER" ++ " JOIN " = "FULL OUTER JOIN " := by decide
  simp only [joinFragments, h5, h6, h7, h8, ht, e, c1, c2, c3, c4]
  simp [MyOrm.Table]

/-- The text of `genSelect` for non-empty column names. -/
theorem genSelect_render (o : QueryBuilder H V) (hne : ∀ c ∈ o.selectColumns, c ≠ "") :
    o.genSelect =
      if o.selectColumns = [] then "SELECT *"
      else "SELECT " ++ strings.Join (o.selectColumns.map fun c =>
        if c ∈ o.encryptedColumns then
          "AES_DECRYPT(" ++ c ++ ", '" ++
            (if o.connection = "" then mapGet o.myOrm.connectionEncKeys o.myOrm.defaultConnection
             else mapGet o.myOrm.connectionEncKeys o.connection) ++ "') AS " ++ c
        else c) ", " := by
  have hkey : (if o.connection ≠ "" then mapGet o.myOrm.connectionEncKeys o.connection
      else mapGet o.myOrm.connectionEncKeys o.myOrm.defaultConnection) = resolvedKey o := by
    unfold resolvedKey
    by_cases hc : o.connection = "" <;> simp [hc]
  have harr : (if o.encryptedColumns.length > 0 then
        o.selectColumns.map fun col =>
          if ContainsStr o.encryptedColumns col then
            "AES_DECRYPT(" ++ col ++ ", '" ++
              (if o.connection ≠ "" then mapGet o.myOrm.connectionEncKeys o.connection
               else mapGet o.myOrm.connectionEncKeys o.myOrm.defaultConnection) ++ "') AS " ++ col
          else col
      else o.selectColumns)
      = o.selectColumns.map (renderColumn o.encryptedColumns (resolvedKey o)) := by
    by_cases he : o.encryptedColumns.length > 0
    · rw [if_pos he, hkey]
      apply List.map_congr_left
      intro c _
      simp only [renderColumn, ContainsStr_iff]
    · rw [if_neg he]
      have hnil : o.encryptedColumns = [] := List.length_eq_zero.mp (by omega)
      rw [hnil]
      have hid : renderColumn [] (resolvedKey o) = id := by
        funext c
        simp [renderColumn]
      rw [hid, List.map_id]
  have hsel : o.genSelect =
      if strings.Join (o.selectColumns.map (renderColumn o.encryptedColumns (resolvedKey o))) ", "
          = "" then "SELECT *"
      else "SELECT " ++
        strings.Join (o.selectColumns.map (renderColumn o.encryptedColumns (resolvedKey o))) ", " := by
    rw [← harr]
    rfl
  rw [hsel]
  have hr : (fun c => if c ∈ o.encryptedColumns then
          "AES_DECRYPT(" ++ c ++ ", '" ++
            (if o.connection = "" then mapGet o.myOrm.connectionEncKeys o.myOrm.defaultConnection
             else mapGet o.myOrm.connectionEncKeys o.connection) ++ "') AS " ++ c
        else c) = renderColumn o.encryptedColumns (resolvedKey o) := rfl
  rw [hr]
  by_cases hs : o.selectColumns = []
  · simp [hs, strings.Join]
  · have hj : strings.Join (o.selectColumns.map (renderColumn o.encryptedColumns (resolvedKey o)))
        ", " ≠ "" := by
      apply Join_ne_empty
      · simpa using hs
      · intro x hx
        obtain ⟨c, hc, rfl⟩ := List.mem_map.mp hx
        exact renderColumn_ne_empty _ _ c (hne c hc)
    rw [if_neg hj, if_neg hs]

/-- C7: with non-empty column names, `genSelect` returns `SELECT *` when no
column is selected, and else `SELECT ` followed by the selected columns in
selection order joined by `, `, a column listed in the encrypted columns as
`AES_DECRYPT(c, '<key>') AS c` with the resolved connection's key, any other
column verbatim. -/
theorem C7_genSelect (o : QueryBuilder H V) (hne : ∀ c ∈ o.selectColumns, c ≠ "") :
    o.genSelect =
      if o.selectColumns = [] then "SELECT *"
      else "SELECT " ++ strings.Join (o.selectColumns.map fun c =>
        if c ∈ o.encryptedColumns then
          "AES_DECRYPT(" ++ c ++ ", '" ++
            (if o.connection = "" then mapGet o.myOrm.connectionEncKeys o.myOrm.defaultConnection
             else mapGet o.myOrm.connectionEncKeys o.connection) ++ "') AS " ++ c
        else c) ", " :=
  genSelect_render o hne

/-- C7 at a builder selecting `id` and the encrypted column `secret`. -/
theorem C7_genSelect_witness :
    sampleSelect.genSelect = "SELECT id, AES_DECRYPT(secret, 'k1') AS secret" :=
  C7_genSelect sampleSelect (by decide)

theorem genGroupBy_clause (o : QueryBuilder H V) (hg : ∀ c ∈ o.groupBy, c ≠ "") :
    optClause o.genGroupBy
      = if o.groupBy = [] then [] else ["group by " ++ strings.Join o.groupBy ", "] := by
  unfold QueryBuilder.genGroupBy
  by_cases h : o.groupBy = []
  · simp [h, strings.Join, optClause]
  · have hj : strings.Join o.groupBy ", " ≠ "" := Join_ne_empty ", " _ h hg
    have hc : "group by " ++ strings.Join o.groupBy ", " ≠ "" :=
      append_ne_empty_left _ _ (by decide)
    simp only [hj, if_false, h, optClause, hc, ne_eq, not_false_eq_true, if_true]

theorem genOrderBy_clause (o : QueryBuilder H V) (ho : ∀ c ∈ o.orderBy, c ≠ "") :
    optClause o.genOrderBy
      = if o.orderBy = [] then [] else ["order by " ++ strings.Join o.orderBy ", "] := by
  unfold QueryBuilder.genOrderBy
  by_cases h : o.orderBy = []
  · simp [h, strings.Join, optClause]
  · have hj : strings.Join o.orderBy ", " ≠ "" := Join_ne_empty ", " _ h ho
    have hc : "order by " ++ strings.Join o.orderBy ", " ≠ "" :=
      append_ne_empty_left _ _ (by decide)
    simp only [hj, if_false, h, optClause, hc, ne_eq, not_false_eq_true, if_true]

/-- C8: with non-empty column names, the text returned by `genSearchQuery` is
the single-space join of, in this order: the SELECT clause, `FROM <table>`,
the rendered joins, the WHERE clause, `group by <cols joined by ', '>` and
`order by <cols joined by ', '>`; the SELECT clause is never empty, the joins
are those registered, the WHERE clause is there exactly when some binding is
produced, and the group-by and order-by clauses exactly when some column of
theirs is set.  The bindings are those of the WHERE clause. -/
theorem C8_genSearchQuery_clauses (o : QueryBuilder H V)
    (hg : ∀ c ∈ o.groupBy, c ≠ "") (ho : ∀ c ∈ o.orderBy, c ≠ "") :
    o.genSelect ≠ "" ∧
    genSearchQuery o = some (strings.Join
      ([o.genSelect, "FROM " ++ o.table] ++
        (o.leftJoin.map (renderJoin "LEFT") ++ o.rightJoin.map (renderJoin "RIGHT") ++
          o.innerJoin.map (renderJoin "INNER") ++ o.fullJoin.map (renderJoin "FULL OUTER")) ++
        (if (whereBindings o).length = 0 then []
          else ["WHERE " ++ strings.Join (whereFragments o) " AND "]) ++
        (if o.groupBy = [] then [] else ["group by " ++ strings.Join o.groupBy ", "]) ++
        (if o.orderBy = [] then [] else ["order by " ++ strings.Join o.orderBy ", "])) " ",
      whereBindings o) := by
  refine ⟨genSelect_ne_empty o, ?_⟩
  have hw := genWhere_eq o
  by_cases hb : (whereBindings o).length = 0
  · rw [if_pos hb] at hw
    rw [genSearchQuery_eq o _ _ hw, genGroupBy_clause o hg, genOrderBy_clause o ho, if_pos hb,
      List.length_eq_zero.mp hb]
    simp [optClause, joinFragments]
  · rw [if_neg hb] at hw
    have hc : "WHERE " ++ strings.Join (whereFragments o) " AND " ≠ "" :=
      append_ne_empty_left _ _ (by decide)
    rw [genSearchQuery_eq o _ _ hw, genGroupBy_clause o hg, genOrderBy_clause o ho, if_neg hb]
    simp [optClause, hc, joinFragments]

/-- C8 at a builder with a select list, a join, a predicate, a group-by and
an order-by column. -/
theorem C8_genSearchQuery_clauses_witness :
    genSearchQuery sampleSelect = some
      ("SELECT id, AES_DECRYPT(secret, 'k1') AS secret FROM users " ++
        "LEFT JOIN projects ON users.id = projects.user_id WHERE a = ? " ++
        "group by team order by id", [1]) := by
  have h := (C8_genSearchQuery_clauses sampleSelect (by decide) (by decide)).2
  rw [h]
  decide

end Statement

/-! ## Pagination -/

section Pagination
variable {H V R E : Type}

/-- C9 (the code at the failing input): the data query fails and the count
query succeeds.  When the data goroutine writes `err` first, the count
goroutine overwrites it with nil and `Paginate` returns a page envelope and no
error; when the count goroutine writes first, the error is returned. -/
theorem C9_data_error_overwritten_by_count_leg :
    ((MyOrm.Table Nat sampleOrm "users").Paginate sampleFailingData .dataLegFirst 1 10 []).map
        (fun r => (r.envelope, r.err))
      = some (some { Total := 25, TotalPages := 3, Page := 1, PerPage := 10, Data := [] }, none) ∧
    ((MyOrm.Table Nat sampleOrm "users").Paginate sampleFailingData .countLegFirst 1 10 []).map
        (fun r => (r.envelope, r.err))
      = some (none, some "data query failed") := by
  constructor <;> decide

theorem wrap64_eq (x : Int) (h1 : -(2 ^ 63) ≤ x) (h2 : x < 2 ^ 63) : wrap64 x = x := by
  unfold wrap64
  rw [Int.emod_eq_of_lt (by omega) (by omega)]
  omega

/-- The page count computed by `Paginate` from a total in `[0, 2^63)` and a
page size in `(0, 2^63)` is the least `n` with `n * perPage ≥ total`. -/
theorem totalPages_ceil (total perPage : Int) (ht : 0 ≤ total) (ht2 : total < 2 ^ 63)
    (hp : 0 < perPage) :
    (total ≤ (if Int.tmod total perPage ≠ 0 then wrap64 (wrap64 (Int.tdiv total perPage) + 1)
        else wrap64 (Int.tdiv total perPage)) * perPage) ∧
    ∀ n : Int, total ≤ n * perPage →
      (if Int.tmod total perPage ≠ 0 then wrap64 (wrap64 (Int.tdiv total perPage) + 1)
        else wrap64 (Int.tdiv total perPage)) ≤ n := by
  have hdm := Int.tdiv_add_tmod total perPage
  have hr0 : 0 ≤ Int.tmod total perPage := Int.tmod_nonneg perPage ht
  have hr1 : Int.tmod total perPage < perPage := Int.tmod_lt_of_pos total hp
  have hq0 : 0 ≤ Int.tdiv total perPage := Int.tdiv_nonneg ht (le_of_lt hp)
  have hqle : Int.tdiv total perPage ≤ perPage * Int.tdiv total perPage := by
    nlinarith
  have hw : wrap64 (Int.tdiv total perPage) = Int.tdiv total perPage :=
    wrap64_eq _ (by omega) (by omega)
  rw [hw]
  by_cases hr : Int.tmod total perPage = 0
  · simp only [hr, ne_eq, not_true_eq_false, if_false]
    constructor
    · rw [hr] at hdm
      rw [mul_comm]
      omega
    · intro n hn
      rw [hr] at hdm
      have : Int.tdiv total perPage * perPage ≤ n * perPage := by
        rw [mul_comm (Int.tdiv total perPage)]
        omega
      exact le_of_mul_le_mul_right this hp
  · simp only [hr, ne_eq, not_false_eq_true, if_true]
    have hw1 : wrap64 (Int.tdiv total perPage + 1) = Int.tdiv total perPage + 1 :=
      wrap64_eq _ (by omega) (by omega)
    rw [hw1]
    constructor
    · nlinarith
    · intro n hn
      by_contra hlt
      have hnq : n ≤ Int.tdiv total perPage := by omega
      have : n * perPage ≤ Int.tdiv total perPage * perPage :=
        mul_le_mul_of_nonneg_right hnq (le_of_lt hp)
      have hpos : 0 < Int.tmod total perPage := by omega
      nlinarith

/-- C10: when the builder's handle exists and the count query answers `total`
with `0 ≤ total < 2^63`, and `perPage > 0`, every envelope that `Paginate`
returns has `Total = total`, `Page = page`, `PerPage = perPage` and
`TotalPages` the least `n` with `n * perPage ≥ total`; and `Paginate` does
return an envelope, with no error, when the data query succeeds. -/
theorem C10_paginate_envelope (o : QueryBuilder H V) (drv : Driver H V R E) (sched : Schedule)
    (page perPage total : Int) (a : R) (h : H)
    (hh : (if o.connection ≠ "" then handleOf o.myOrm.connections o.connection
      else handleOf o.myOrm.connections o.myOrm.defaultConnection) = some h)
    (hget : ∀ q b, genSearchQuery { o with selectColumns := ["COUNT(*) OVER() AS total"] }
      = some (q, b) → drv.Get h q b = .ok total)
    (ht : 0 ≤ total) (ht2 : total < 2 ^ 63) (hp : 0 < perPage) :
    (∀ run env, o.Paginate drv sched page perPage a = some run → run.envelope = some env →
      env.Total = total ∧ env.Page = page ∧ env.PerPage = perPage ∧
      total ≤ env.TotalPages * perPage ∧ ∀ n : Int, total ≤ n * perPage → env.TotalPages ≤ n) ∧
    ((∀ q b, ∃ rows, drv.Select h q b = .ok rows) →
      ∃ run env, o.Paginate drv sched page perPage a = some run ∧ run.envelope = some env ∧
        run.err = none) := by
  obtain ⟨q, hq⟩ := genSearchQuery_bindings o
  obtain ⟨q1, hq1⟩ := genSearchQuery_bindings
    ({ o with selectColumns := ["COUNT(*) OVER() AS total"] } : QueryBuilder H V)
  have hg := hget _ _ hq1
  have hp0 : perPage ≠ 0 := by omega
  obtain ⟨c1, c2⟩ := totalPages_ceil total perPage ht ht2 hp
  constructor
  · intro run env hrun henv
    unfold QueryBuilder.Paginate at hrun
    simp only [hq, hq1, hh, hg] at hrun
    split at hrun
    · simp only [Option.some.injEq] at hrun
      rw [← hrun] at henv
      simp at henv
    · simp only [hp0, if_false, Option.some.injEq] at hrun
      rw [← hrun] at henv
      simp only [Option.some.injEq] at henv
      rw [← henv]
      exact ⟨rfl, rfl, rfl, c1, c2⟩
  · intro hsel
    unfold QueryBuilder.Paginate
    simp only [hq, hq1, hh, hg]
    obtain ⟨rows, hrows⟩ := hsel
      (q ++ " LIMIT " ++ toString perPage ++ " OFFSET " ++ toString (wrap64 ((page - 1) * perPage)))
      (whereBindings o)
    simp only [hrows]
    have herr : (Paginate.errAfterWait sched (none : Option E) none).isSome = false := by
      cases sched <;> rfl
    simp only [herr, hp0, if_false, Bool.false_eq_true]
    exact ⟨_, _, rfl, rfl, rfl⟩

/-- C10 at `Paginate(1, 10, ...)` over a result set of 25 rows: three pages. -/
theorem C10_paginate_envelope_witness :
    ∃ run env, (MyOrm.Table Nat sampleOrm "users").Paginate sampleDriver .countLegFirst 1 10 []
        = some run ∧ run.envelope = some env ∧ run.err = none ∧
      env.Total = 25 ∧ env.Page = 1 ∧ env.PerPage = 10 ∧ env.TotalPages = 3 := by
  have h := C10_paginate_envelope (MyOrm.Table Nat sampleOrm "users") sampleDriver
    .countLegFirst 1 10 25 [] () (by decide) (fun _ _ _ => rfl) (by decide) (by decide)
    (by decide)
  obtain ⟨run, env, h1, h2, h3⟩ := h.2 (fun _ _ => ⟨[1, 2, 3], rfl⟩)
  obtain ⟨e1, e2, e3, e4, e5⟩ := h.1 run env h1 h2
  refine ⟨run, env, h1, h2, h3, e1, e2, e3, ?_⟩
  have lo : (3 : Int) ≤ env.TotalPages := by omega
  have hi : env.TotalPages ≤ 3 := e5 3 (by decide)
  omega

/-- What `Paginate` leaves behind when it does not panic: the data query is
the compilation of the builder as it was at the call, followed by the limit
and offset; the count query is the compilation of the builder with the select
list overwritten, which is the builder left behind. -/
theorem Paginate_run (o : QueryBuilder H V) (drv : Driver H V R E) (sched : Schedule)
    (page perPage : Int) (a : R) (run : Paginate.Run H V R E)
    (hrun : o.Paginate drv sched page perPage a = some run) :
    (∃ text, genSearchQuery o = some (text, run.dataQuery.2) ∧
      run.dataQuery.1 = text ++ " LIMIT " ++ toString perPage ++ " OFFSET " ++
        toString (wrap64 ((page - 1) * perPage))) ∧
    genSearchQuery ({ o with selectColumns := ["COUNT(*) OVER() AS total"] } : QueryBuilder H V)
      = some run.countQuery ∧
    run.builder = { o with selectColumns := ["COUNT(*) OVER() AS total"] } := by
  obtain ⟨q, hq⟩ := genSearchQuery_bindings o
  obtain ⟨q1, hq1⟩ := genSearchQuery_bindings
    ({ o with selectColumns := ["COUNT(*) OVER() AS total"] } : QueryBuilder H V)
  unfold QueryBuilder.Paginate at hrun
  simp only [hq, hq1] at hrun
  split at hrun
  · exact absurd hrun (by simp)
  · split at hrun
    · simp only [Option.some.injEq] at hrun
      subst hrun
      exact ⟨⟨q, hq, rfl⟩, hq1, rfl⟩
    · split at hrun
      · exact absurd hrun (by simp)
      · simp only [Option.some.injEq] at hrun
        subst hrun
        exact ⟨⟨q, hq, rfl⟩, hq1, rfl⟩

/-- `Paginate` does not panic when the builder's handle exists and the page
size is not zero. -/
theorem Paginate_returns (o : QueryBuilder H V) (drv : Driver H V R E) (sched : Schedule)
    (page perPage : Int) (a : R) (h : H)
    (hh : (if o.connection ≠ "" then handleOf o.myOrm.connections o.connection
      else handleOf o.myOrm.connections o.myOrm.defaultConnection) = some h)
    (hp : perPage ≠ 0) :
    ∃ run, o.Paginate drv sched page perPage a = some run := by
  obtain ⟨q, hq⟩ := genSearchQuery_bindings o
  obtain ⟨q1, hq1⟩ := genSearchQuery_bindings
    ({ o with selectColumns := ["COUNT(*) OVER() AS total"] } : QueryBuilder H V)
  unfold QueryBuilder.Paginate
  simp only [hq, hq1, hh, hp, if_false]
  split
  · exact ⟨_, rfl⟩
  · exact ⟨_, rfl⟩

/-- The text compiled by `genSearchQuery` starts with the SELECT and FROM
clauses. -/
theorem genSearchQuery_head (o : QueryBuilder H V) (text : String) (b : List V)
    (h : genSearchQuery o = some (text, b)) :
    ∃ rest, text = strings.Join (o.genSelect :: ("FROM " ++ o.table) :: rest) " " := by
  obtain ⟨w, hw⟩ := genWhere_bindings o
  have e := genSearchQuery_eq o w _ hw
  rw [h] at e
  simp only [Option.some.injEq, Prod.mk.injEq] at e
  exact ⟨joinFragments o ++ (optClause w ++ optClause o.genGroupBy ++ optClause o.genOrderBy),
    e.1⟩

/-- With a page size of zero `Paginate` returns no envelope: it returns an
error or panics on the division. -/
theorem Paginate_zero_perPage (o : QueryBuilder H V) (drv : Driver H V R E) (sched : Schedule)
    (page : Int) (a : R) (run : Paginate.Run H V R E)
    (hrun : o.Paginate drv sched page 0 a = some run) : run.envelope = none := by
  obtain ⟨q, hq⟩ := genSearchQuery_bindings o
  obtain ⟨q1, hq1⟩ := genSearchQuery_bindings
    ({ o with selectColumns := ["COUNT(*) OVER() AS total"] } : QueryBuilder H V)
  unfold QueryBuilder.Paginate at hrun
  simp only [hq, hq1] at hrun
  split at hrun
  · exact absurd hrun (by simp)
  · split at hrun
    · simp only [Option.some.injEq] at hrun
      rw [← hrun]
    · simp at hrun

/-- C11: for a builder whose handle exists, and every page and page size, the
data query that `Paginate` sends to the driver is the text compiled by
`genSearchQuery` from the builder as it was at the call, followed by
` LIMIT <perPage> OFFSET <offset>`, with the bindings of that compilation; the
offset is the 64-bit value of `(page-1)*perPage`, which is `(page-1)*perPage`
when that is in range.  It is that call the outcome hangs on, for every
driver: an error the driver answers to it is the error returned (count
goroutine writing first, any page size, zero included), and a row set the
driver answers to it is the `Data` of every returned envelope.  The SELECT
clause of the text is that of the builder at the call, not of the builder with
the overwritten select list, from which the count query is compiled.  The call
returns when `perPage` is not zero; with `perPage` zero the query is the same
and the call returns no envelope: it returns the error, or panics on the
division when both queries succeed. -/
theorem C11_paginate_data_query (o : QueryBuilder H V) (page perPage : Int) (h : H)
    (hh : (if o.connection ≠ "" then handleOf o.myOrm.connections o.connection
      else handleOf o.myOrm.connections o.myOrm.defaultConnection) = some h) :
    ∃ (text : String) (bindings : List V) (rest : List String),
      genSearchQuery o = some (text, bindings) ∧
      text = strings.Join (o.genSelect :: ("FROM " ++ o.table) :: rest) " " ∧
      (-(2 ^ 63) ≤ (page - 1) * perPage → (page - 1) * perPage < 2 ^ 63 →
        wrap64 ((page - 1) * perPage) = (page - 1) * perPage) ∧
      (∀ (drv : Driver H V R E) (a : R) (x : E),
        drv.Select h (text ++ " LIMIT " ++ toString perPage ++ " OFFSET " ++
          toString (wrap64 ((page - 1) * perPage))) bindings = .error x →
        ∃ run, o.Paginate drv .countLegFirst page perPage a = some run ∧
          run.err = some x ∧ run.envelope = none) ∧
      (∀ (drv : Driver H V R E) (sched : Schedule) (a rows : R),
        drv.Select h (text ++ " LIMIT " ++ toString perPage ++ " OFFSET " ++
          toString (wrap64 ((page - 1) * perPage))) bindings = .ok rows →
        ∀ run env, o.Paginate drv sched page perPage a = some run →
          run.envelope = some env → env.Data = rows) ∧
      (∀ (drv : Driver H V R E) (sched : Schedule) (a : R) (run : Paginate.Run H V R E),
        o.Paginate drv sched page perPage a = some run →
        run.dataQuery = (text ++ " LIMIT " ++ toString perPage ++ " OFFSET " ++
          toString (wrap64 ((page - 1) * perPage)), bindings) ∧
        genSearchQuery
            ({ o with selectColumns := ["COUNT(*) OVER() AS total"] } : QueryBuilder H V)
          = some run.countQuery ∧
        (perPage = 0 → run.envelope = none)) ∧
      (perPage ≠ 0 → ∀ (drv : Driver H V R E) (sched : Schedule) (a : R),
        ∃ run, o.Paginate drv sched page perPage a = some run) ∧
      (perPage = 0 → ∀ (drv : Driver H V R E) (sched : Schedule) (a rows : R) (total : Int)
          (countText : String) (countBindings : List V),
        genSearchQuery
            ({ o with selectColumns := ["COUNT(*) OVER() AS total"] } : QueryBuilder H V)
          = some (countText, countBindings) →
        drv.Get h countText countBindings = .ok total →
        drv.Select h (text ++ " LIMIT " ++ toString perPage ++ " OFFSET " ++
          toString (wrap64 ((page - 1) * perPage))) bindings = .ok rows →
        o.Paginate drv sched page perPage a = none) := by
  obtain ⟨text, hq⟩ := genSearchQuery_bindings o
  obtain ⟨q1, hq1⟩ := genSearchQuery_bindings
    ({ o with selectColumns := ["COUNT(*) OVER() AS total"] } : QueryBuilder H V)
  obtain ⟨rest, hrest⟩ := genSearchQuery_head o text _ hq
  refine ⟨text, _, rest, hq, hrest, fun lo hi => wrap64_eq _ lo hi, ?_, ?_, ?_, ?_, ?_⟩
  · intro drv a x hsel
    unfold QueryBuilder.Paginate
    simp only [hq, hq1, hh, hsel]
    have herr : ∀ g : Option E, Paginate.errAfterWait .countLegFirst g (some x) = some x :=
      fun _ => rfl
    simp only [herr, Option.isSome_some, if_true]
    exact ⟨_, rfl, rfl, rfl⟩
  · intro drv sched a rows hsel run env hrun henv
    unfold QueryBuilder.Paginate at hrun
    simp only [hq, hq1, hh, hsel] at hrun
    split at hrun
    · simp only [Option.some.injEq] at hrun
      rw [← hrun] at henv
      simp at henv
    · split at hrun
      · exact absurd hrun (by simp)
      · simp only [Option.some.injEq] at hrun
        rw [← hrun] at henv
        simp only [Option.some.injEq] at henv
        rw [← henv]
  · intro drv sched a run hrun
    obtain ⟨⟨t1, h1, h2⟩, h3, -⟩ := Paginate_run o drv sched page perPage a run hrun
    rw [hq] at h1
    simp only [Option.some.injEq, Prod.mk.injEq] at h1
    refine ⟨?_, h3, ?_⟩
    · apply Prod.ext
      · rw [h2, h1.1]
      · exact h1.2.symm
    · intro hp
      subst hp
      exact Paginate_zero_perPage o drv sched page a run hrun
  · intro hp drv sched a
    exact Paginate_returns o drv sched page perPage a h hh hp
  · intro hp drv sched a rows total countText countBindings hc hget hsel
    subst hp
    unfold QueryBuilder.Paginate
    simp only [hq, hc, hh, hget, hsel]
    have herr : (Paginate.errAfterWait sched (none : Option E) none).isSome = false := by
      cases sched <;> rfl
    simp only [herr, if_true, Bool.false_eq_true, if_false]

/-- C11 at `Paginate(3, 10, ...)` and at `Paginate(1, 0, ...)` with a driver
whose data query fails with the text and bindings it was sent: the text sent
selects the caller's columns and ends with `LIMIT 10 OFFSET 20`, and with
`LIMIT 0 OFFSET 0`. -/
theorem C11_paginate_data_query_witness :
    (∃ run, sampleSelect.Paginate sampleEchoDriver .countLegFirst 3 10 [] = some run ∧
      run.err = some ("SELECT id, AES_DECRYPT(secret, 'k1') AS secret FROM users " ++
        "LEFT JOIN projects ON users.id = projects.user_id WHERE a = ? " ++
        "group by team order by id LIMIT 10 OFFSET 20", [1])) ∧
    (∃ run, sampleSelect.Paginate sampleEchoDriver .countLegFirst 1 0 [] = some run ∧
      run.err = some ("SELECT id, AES_DECRYPT(secret, 'k1') AS secret FROM users " ++
        "LEFT JOIN projects ON users.id = projects.user_id WHERE a = ? " ++
        "group by team order by id LIMIT 0 OFFSET 0", [1])) := by
  have h6 : genSearchQuery sampleSelect = some
      ("SELECT id, AES_DECRYPT(secret, 'k1') AS secret FROM users " ++
        "LEFT JOIN projects ON users.id = projects.user_id WHERE a = ? " ++
        "group by team order by id", [1]) := by decide
  constructor
  · obtain ⟨text, bindings, rest, h1, -, -, h4, -, -, -, -⟩ :=
      @C11_paginate_data_query Unit Nat (List Nat) (String × List Nat) sampleSelect 3 10 ()
        (by decide)
    rw [h6] at h1
    simp only [Option.some.injEq, Prod.mk.injEq] at h1
    obtain ⟨t1, t2⟩ := h1
    subst t1 t2
    obtain ⟨run, hrun, herr, -⟩ := h4 sampleEchoDriver [] _ rfl
    exact ⟨run, hrun, herr⟩
  · obtain ⟨text, bindings, rest, h1, -, -, h4, -, -, -, -⟩ :=
      @C11_paginate_data_query Unit Nat (List Nat) (String × List Nat) sampleSelect 1 0 ()
        (by decide)
    rw [h6] at h1
    simp only [Option.some.injEq, Prod.mk.injEq] at h1
    obtain ⟨t1, t2⟩ := h1
    subst t1 t2
    obtain ⟨run, hrun, herr, -⟩ := h4 sampleEchoDriver [] _ rfl
    exact ⟨run, hrun, herr⟩

/-- The query that `Get` sends is the compilation of the builder. -/
theorem Get_query (o : QueryBuilder H V) (drv : Driver H V R E) (a : R) (r : Fetch.Run V R E)
    (hr : o.Get drv a = some r) : genSearchQuery o = some r.query := by
  obtain ⟨q, hq⟩ := genSearchQuery_bindings o
  unfold QueryBuilder.Get at hr
  simp only [hq] at hr
  split at hr
  · exact absurd hr (by simp)
  · split at hr <;>
    · simp only [Option.some.injEq] at hr
      subst hr
      exact hq

/-- The query that `First` sends is the compilation of the builder followed by
` LIMIT 1`. -/
theorem First_query (o : QueryBuilder H V) (getRow : H → String → List V → Except E R) (a : R)
    (r : Fetch.Run V R E) (hr : o.First getRow a = some r) :
    ∃ text, genSearchQuery o = some (text, r.query.2) ∧ r.query.1 = text ++ " LIMIT 1" := by
  obtain ⟨q, hq⟩ := genSearchQuery_bindings o
  unfold QueryBuilder.First at hr
  simp only [hq] at hr
  split at hr
  · exact absurd hr (by simp)
  · split at hr <;>
    · simp only [Option.some.injEq] at hr
      subst hr
      exact ⟨q, hq, rfl⟩

/-- C18: after a `Paginate` call that returns, the select list of the builder
is the single entry `COUNT(*) OVER() AS total` and every other field is as it
was; so the SELECT clause compiled from that builder is the count expression
(decrypted, when the count expression is itself listed as an encrypted
column), and the statement that a later `Get` or `First` sends starts with
that clause. -/
theorem C18_paginate_overwrites_select (o : QueryBuilder H V) (drv : Driver H V R E)
    (sched : Schedule) (page perPage : Int) (a : R) (run : Paginate.Run H V R E)
    (hrun : o.Paginate drv sched page perPage a = some run) :
    run.builder.selectColumns = ["COUNT(*) OVER() AS total"] ∧
    (run.builder.where_ = o.where_ ∧ run.builder.whereIn = o.whereIn ∧
      run.builder.table = o.table ∧ run.builder.connection = o.connection ∧
      run.builder.leftJoin = o.leftJoin ∧ run.builder.rightJoin = o.rightJoin ∧
      run.builder.innerJoin = o.innerJoin ∧ run.builder.fullJoin = o.fullJoin ∧
      run.builder.whereEncrypted = o.whereEncrypted ∧ run.builder.insert = o.insert ∧
      run.builder.encryptedColumns = o.encryptedColumns ∧ run.builder.groupBy = o.groupBy ∧
      run.builder.orderBy = o.orderBy ∧ run.builder.whereRaw = o.whereRaw ∧
      run.builder.myOrm = o.myOrm) ∧
    run.builder.genSelect = "SELECT " ++
      (if "COUNT(*) OVER() AS total" ∈ o.encryptedColumns then
        "AES_DECRYPT(COUNT(*) OVER() AS total, '" ++
          (if o.connection = "" then mapGet o.myOrm.connectionEncKeys o.myOrm.defaultConnection
           else mapGet o.myOrm.connectionEncKeys o.connection) ++
          "') AS COUNT(*) OVER() AS total"
       else "COUNT(*) OVER() AS total") ∧
    (∀ (drv2 : Driver H V R E) (a2 : R) (r : Fetch.Run V R E),
      run.builder.Get drv2 a2 = some r →
      ∃ rest, r.query.1
        = strings.Join (run.builder.genSelect :: ("FROM " ++ o.table) :: rest) " ") ∧
    (∀ (getRow : H → String → List V → Except E R) (a2 : R) (r : Fetch.Run V R E),
      run.builder.First getRow a2 = some r →
      ∃ rest, r.query.1
        = strings.Join (run.builder.genSelect :: ("FROM " ++ o.table) :: rest) " "
          ++ " LIMIT 1") := by
  obtain ⟨-, -, hb⟩ := Paginate_run o drv sched page perPage a run hrun
  rw [hb]
  refine ⟨rfl, ⟨rfl, rfl, rfl, rfl, rfl, rfl, rfl, rfl, rfl, rfl, rfl, rfl, rfl, rfl, rfl⟩,
    ?_, ?_, ?_⟩
  · have h := genSelect_render
      ({ o with selectColumns := ["COUNT(*) OVER() AS total"] } : QueryBuilder H V)
      (by intro c hc; simp only [List.mem_singleton] at hc; rw [hc]; decide)
    rw [h]
    simp [strings.Join, String.append_assoc]
  · intro drv2 a2 r hr
    have hq := Get_query _ drv2 a2 r hr
    exact genSearchQuery_head _ r.query.1 r.query.2 hq
  · intro getRow a2 r hr
    obtain ⟨text, hq, ht⟩ := First_query _ getRow a2 r hr
    obtain ⟨rest, hrest⟩ := genSearchQuery_head _ text r.query.2 hq
    exact ⟨rest, by rw [ht, hrest]⟩

/-- C18 at a builder that selected `id` and `secret`: after `Paginate(1, 10,
...)` its select list is the count expression. -/
theorem C18_paginate_overwrites_select_witness :
    ∃ run, sampleSelect.Paginate sampleDriver .countLegFirst 1 10 [] = some run ∧
      run.builder.selectColumns = ["COUNT(*) OVER() AS total"] ∧
      run.builder.genSelect = "SELECT COUNT(*) OVER() AS total" := by
  obtain ⟨run, hrun⟩ := Paginate_returns sampleSelect sampleDriver .countLegFirst 1 10 []
    () (by decide) (by decide)
  obtain ⟨h1, -, h3, -, -⟩ :=
    C18_paginate_overwrites_select sampleSelect sampleDriver .countLegFirst 1 10 [] run hrun
  exact ⟨run, hrun, h1, h3⟩

end Pagination

/-! ## The connection registry and the connection override -/

section RegistryLemmas
variable {H V : Type}

theorem handleOf_mapSet (m : List (String × H)) (k k1 : String) (v : H) :
    handleOf (mapSet m k1 v) k = if k = k1 then some v else handleOf m k := by
  unfold handleOf mapSet
  simp only [List.lookup]
  by_cases h : k = k1
  · simp [h]
  · have hb : (k == k1) = false := by simpa using h
    simp [h, hb]

/-- The registry that the loop of `DBInit` builds: the names of the
descriptors are appended in order; every descriptor's name gets a handle and
no handle is lost; a name that no descriptor carries keeps its handle; the
default is set by the descriptor met at index 0 only. -/
theorem DBInit_loop_spec (sqlxOpen : String → String → Except String H)
    (cons : List DBConnection) :
    ∀ (orm : MyOrm H) (i : Nat) (orm1 : MyOrm H),
      DBInit.loop sqlxOpen orm i cons = some orm1 →
      orm1.connectionNames = orm.connectionNames ++ cons.map (fun c => c.ConnectionName) ∧
      (∀ k, (handleOf orm.connections k).isSome ∨ k ∈ cons.map (fun c => c.ConnectionName) →
        (handleOf orm1.connections k).isSome) ∧
      (∀ k, k ∉ cons.map (fun c => c.ConnectionName) →
        handleOf orm1.connections k = handleOf orm.connections k) ∧
      (i ≠ 0 → orm1.defaultConnection = orm.defaultConnection) ∧
      (i = 0 → ∀ c rest, cons = c :: rest → orm1.defaultConnection = c.ConnectionName) := by
  induction cons with
  | nil =>
    intro orm i orm1 h
    simp only [DBInit.loop, Option.some.injEq] at h
    subst h
    simp
  | cons con rest ih =>
    intro orm i orm1 h
    simp only [DBInit.loop] at h
    split at h
    · exact absurd h (by simp)
    · rename_i db hopen
      obtain ⟨h1, h2, h3, h4, -⟩ := ih _ (i + 1) orm1 h
      have h4 := h4 (by omega)
      by_cases hi : i = 0
      · simp only [hi, if_true] at h1 h2 h3 h4
        refine ⟨by simp [h1], ?_, ?_, fun hne => absurd hi hne, ?_⟩
        · intro k hk
          apply h2
          rw [handleOf_mapSet]
          by_cases hkc : k = con.ConnectionName
          · simp [hkc]
          · simp only [hkc, if_false]
            rcases hk with hk | hk
            · exact Or.inl hk
            · simp only [List.map_cons, List.mem_cons, hkc, false_or] at hk
              exact Or.inr hk
        · intro k hk
          simp only [List.map_cons, List.mem_cons, not_or] at hk
          rw [h3 k hk.2, handleOf_mapSet, if_neg hk.1]
        · intro _ c rest1 hc
          simp only [List.cons.injEq] at hc
          rw [h4, ← hc.1]
      · simp only [hi, if_false] at h1 h2 h3 h4
        refine ⟨by simp [h1], ?_, ?_, fun _ => h4, fun h0 => absurd h0 hi⟩
        · intro k hk
          apply h2
          rw [handleOf_mapSet]
          by_cases hkc : k = con.ConnectionName
          · simp [hkc]
          · simp only [hkc, if_false]
            rcases hk with hk | hk
            · exact Or.inl hk
            · simp only [List.map_cons, List.mem_cons, hkc, false_or] at hk
              exact Or.inr hk
        · intro k hk
          simp only [List.map_cons, List.mem_cons, not_or] at hk
          rw [h3 k hk.2, handleOf_mapSet, if_neg hk.1]

/-- The registry `DBInit` builds from at least one descriptor: its name list
is the descriptors' names in order, its default is the first descriptor's
name, every listed name has a handle, and the first descriptor's name holds
the handle opened for it when no later descriptor carries the same name. -/
theorem DBInit_spec (sqlxOpen : String → String → Except String H) (c : DBConnection)
    (rest : List DBConnection) (orm : MyOrm H) (h : DBInit sqlxOpen (c :: rest) = some orm) :
    orm.connectionNames = (c :: rest).map (fun d => d.ConnectionName) ∧
    orm.defaultConnection = c.ConnectionName ∧
    (∀ k ∈ (c :: rest).map (fun d => d.ConnectionName), (handleOf orm.connections k).isSome) ∧
    (c.ConnectionName ∉ rest.map (fun d => d.ConnectionName) →
      ∃ h0, sqlxOpen c.DBDriver (c.DBUsername ++ ":" ++ c.DBPassword ++ "@" ++ c.DBProtocol ++
          "(" ++ c.DBAddress ++ ")/" ++ c.DBName ++ "?parseTime=true") = .ok h0 ∧
        handleOf orm.connections c.ConnectionName = some h0) := by
  obtain ⟨h1, h2, -, -, h5⟩ := DBInit_loop_spec sqlxOpen (c :: rest) _ 0 orm h
  refine ⟨by simpa using h1, h5 rfl c rest rfl, fun k hk => h2 k (Or.inr hk), ?_⟩
  intro hnot
  unfold DBInit at h
  simp only [DBInit.loop] at h
  split at h
  · exact absurd h (by simp)
  · rename_i db hopen
    obtain ⟨-, -, g3, -, -⟩ := DBInit_loop_spec sqlxOpen rest _ 1 orm h
    refine ⟨db, hopen, ?_⟩
    rw [g3 _ hnot]
    simp [handleOf_mapSet]

/-- C12 (the code): `Connection(name)` panics exactly when `name` is in the
registry's name list, and sets the override to `name` when it is not; with
the registry holding `main`, `Connection("main")` panics and
`Connection("nope")` sets the override. -/
theorem C12_connection_check_inverted :
    (∀ (o : QueryBuilder H V) (name : String),
      o.Connection name = if name ∈ o.myOrm.connectionNames then none
        else some { o with connection := name }) ∧
    (MyOrm.Table Nat sampleOrm "users").Connection "main" = none ∧
    ((MyOrm.Table Nat sampleOrm "users").Connection "nope").map (fun b => b.connection)
      = some "nope" := by
  refine ⟨?_, by decide, by decide⟩
  intro o name
  unfold QueryBuilder.Connection
  by_cases h : name ∈ o.myOrm.connectionNames
  · simp [h, (ContainsStr_iff _ _).mpr h]
  · have hc : ContainsStr o.myOrm.connectionNames name = false := by
      cases hb : ContainsStr o.myOrm.connectionNames name
      · rfl
      · exact absurd ((ContainsStr_iff _ _).mp hb) h
    simp [h, hc]

/-- C13: for a name that is not in the registry's name list `GetDBConnection`
returns no handle and an error; for a name in the list it returns the handle
stored under that name and no error, and in a registry built by `DBInit` that
handle is not nil. -/
theorem C13_GetDBConnection (o : MyOrm H) (name : String) :
    (name ∉ o.connectionNames →
      o.GetDBConnection name = (none, some "invalid connection specified")) ∧
    (name ∈ o.connectionNames → o.GetDBConnection name = (handleOf o.connections name, none)) ∧
    (∀ (sqlxOpen : String → String → Except String H) (cons : List DBConnection),
      DBInit sqlxOpen cons = some o → name ∈ o.connectionNames →
      ∃ h, o.GetDBConnection name = (some h, none)) := by
  have hin : name ∈ o.connectionNames → o.GetDBConnection name
      = (handleOf o.connections name, none) := by
    intro h
    simp [MyOrm.GetDBConnection, (ContainsStr_iff _ _).mpr h]
  refine ⟨?_, hin, ?_⟩
  · intro h
    have hc : ContainsStr o.connectionNames name = false := by
      cases hb : ContainsStr o.connectionNames name
      · rfl
      · exact absurd ((ContainsStr_iff _ _).mp hb) h
    simp [MyOrm.GetDBConnection, hc]
  · intro sqlxOpen cons hinit hname
    obtain ⟨h1, h2, -, -, -⟩ := DBInit_loop_spec sqlxOpen cons _ 0 o hinit
    rw [h1] at hname
    have hs := h2 name (Or.inr (by simpa using hname))
    obtain ⟨h, hh⟩ := Option.isSome_iff_exists.mp hs
    rw [h1] at hin
    exact ⟨h, by rw [hin hname, hh]⟩

/-- C14 (counterexample): in the registry built from the single descriptor
`main`, `GetDBConnection("")` returns no handle and an error, not the default
connection's handle. -/
theorem C14_empty_name_rejected :
    ∃ orm : MyOrm Unit, DBInit sampleOpen [sampleDescriptor] = some orm ∧
      orm.GetDBConnection "" = (none, some "invalid connection specified") ∧
      orm.GetDBConnection "" ≠ (handleOf orm.connections orm.defaultConnection, none) :=
  ⟨_, rfl, by decide, by decide⟩

/-- C14 (amended): in a registry built by `DBInit` from at least one
descriptor, `GetDBConnection("")` returns no handle and an error when no
descriptor is named `""`; the default connection's handle is returned, with no
error, by `GetDBConnection` on the first descriptor's name, and it is the
handle opened for the first descriptor when no later descriptor carries the
same name. -/
theorem C14_default_by_name (sqlxOpen : String → String → Except String H)
    (c : DBConnection) (rest : List DBConnection) (orm : MyOrm H)
    (hinit : DBInit sqlxOpen (c :: rest) = some orm) :
    ((∀ d ∈ c :: rest, d.ConnectionName ≠ "") →
      orm.GetDBConnection "" = (none, some "invalid connection specified")) ∧
    (∃ h, orm.GetDBConnection c.ConnectionName = (some h, none) ∧
      handleOf orm.connections orm.defaultConnection = some h) ∧
    (c.ConnectionName ∉ rest.map (fun d => d.ConnectionName) →
      ∃ h0, sqlxOpen c.DBDriver (c.DBUsername ++ ":" ++ c.DBPassword ++ "@" ++ c.DBProtocol ++
          "(" ++ c.DBAddress ++ ")/" ++ c.DBName ++ "?parseTime=true") = .ok h0 ∧
        orm.GetDBConnection c.ConnectionName = (some h0, none)) := by
  obtain ⟨h1, h2, h3, h4⟩ := DBInit_spec sqlxOpen c rest orm hinit
  have hmem : c.ConnectionName ∈ orm.connectionNames := by rw [h1]; simp
  have hget : orm.GetDBConnection c.ConnectionName
      = (handleOf orm.connections c.ConnectionName, none) := by
    simp [MyOrm.GetDBConnection, (ContainsStr_iff _ _).mpr hmem]
  refine ⟨?_, ?_, ?_⟩
  · intro hne
    have hnot : "" ∉ orm.connectionNames := by
      rw [h1]
      intro hm
      obtain ⟨d, hd, hd2⟩ := List.mem_map.mp hm
      exact hne d hd hd2
    have hc : ContainsStr orm.connectionNames "" = false := by
      cases hb : ContainsStr orm.connectionNames ""
      · rfl
      · exact absurd ((ContainsStr_iff _ _).mp hb) hnot
    simp [MyOrm.GetDBConnection, hc]
  · obtain ⟨h, hh⟩ := Option.isSome_iff_exists.mp (h3 c.ConnectionName (by simp))
    exact ⟨h, by rw [hget, hh], by rw [h2, hh]⟩
  · intro hnot
    obtain ⟨h0, ho, hh⟩ := h4 hnot
    exact ⟨h0, ho, by rw [hget, hh]⟩

/-- C14 (amended) at the registry built from the single descriptor `main`. -/
theorem C14_default_by_name_witness :
    ∃ orm : MyOrm Unit, DBInit sampleOpen [sampleDescriptor] = some orm ∧
      orm.GetDBConnection "" = (none, some "invalid connection specified") ∧
      orm.GetDBConnection "main" = (some (), none) := by
  have h := C14_default_by_name sampleOpen sampleDescriptor [] _ rfl
  exact ⟨_, rfl, h.1 (by decide), by
    obtain ⟨h0, -, hh⟩ := h.2.2 (by decide)
    exact hh⟩

end RegistryLemmas

/-! ## Insert and Update -/

section ExecLemmas
variable {H V E : Type}

theorem writeAt_replicate_at {α : Type} (pre : List α) (z v : α) (n i : Nat)
    (hi : pre.length = i) :
    writeAt (pre ++ List.replicate (n + 1) z) i v = some ((pre ++ [v]) ++ List.replicate n z) := by
  subst hi
  exact writeAt_replicate pre z v n

theorem Insert_loop_eq (enc : List String) (key : String) (d : V) (data : List (String × V)) :
    ∀ (preC : List String) (preV : List V) (preP : List String) (i k : Nat),
      preC.length = i → preV.length = i → preP.length = i →
      Insert.loop enc key (preC ++ List.replicate (data.length + k) "")
          (preV ++ List.replicate (data.length + k) d)
          (preP ++ List.replicate (data.length + k) "") i data
        = some (preC ++ data.map (fun kv => kv.1) ++ List.replicate k "",
            preV ++ data.map (fun kv => kv.2) ++ List.replicate k d,
            preP ++ data.map (fun kv => if kv.1 ∈ enc then "AES_ENCRYPT(?, '" ++ key ++ "')"
              else "?") ++ List.replicate k "") := by
  induction data with
  | nil => intro preC preV preP i k _ _ _; simp [Insert.loop]
  | cons kv data ih =>
    intro preC preV preP i k hC hV hP
    obtain ⟨c, v⟩ := kv
    have hlen : ((c, v) :: data).length + k = (data.length + k) + 1 := by simp; omega
    rw [hlen]
    simp only [Insert.loop]
    rw [writeAt_replicate_at preC _ _ _ i hC, writeAt_replicate_at preV _ _ _ i hV,
      writeAt_replicate_at preP _ _ _ i hP]
    simp only []
    rw [ih (preC ++ [c]) (preV ++ [v]) _ (i + 1) k (by simp [hC]) (by simp [hV]) (by simp [hP])]
    by_cases hc : c ∈ enc
    · simp [hc, (ContainsStr_iff enc c).mpr hc]
    · have hb : ContainsStr enc c = false := by
        cases hb : ContainsStr enc c
        · rfl
        · exact absurd ((ContainsStr_iff _ _).mp hb) hc
      simp [hc, hb]

theorem Update_loop_eq (data : List (String × V)) :
    ∀ (preC : List String) (vs : List V) (k : Nat),
      Update.loop (preC ++ List.replicate (data.length + k) "") vs preC.length data
        = some (preC ++ data.map (fun kv => kv.1 ++ " = ?") ++ List.replicate k "",
            vs ++ data.map (fun kv => kv.2)) := by
  induction data with
  | nil => intro preC vs k; simp [Update.loop]
  | cons kv data ih =>
    intro preC vs k
    obtain ⟨c, v⟩ := kv
    have hlen : ((c, v) :: data).length + k = (data.length + k) + 1 := by simp; omega
    rw [hlen]
    simp only [Update.loop]
    rw [writeAt_replicate]
    have h := ih (preC ++ [c ++ " = ?"]) (vs ++ [v]) k
    simp only [List.length_append, List.length_singleton] at h
    simp only [h]
    simp

/-- The statement and bindings built by `Insert`: no write is out of range. -/
theorem Insert_build_eq [Inhabited V] (o : QueryBuilder H V) (data : List (String × V)) :
    Insert.build o data = some
      ("INSERT INTO " ++ o.table ++ " (" ++ strings.Join (data.map fun kv => kv.1) ", " ++
        ") VALUES (" ++
        strings.Join (data.map fun kv =>
          if kv.1 ∈ o.encryptedColumns then "AES_ENCRYPT(?, '" ++ resolvedKey o ++ "')"
          else "?") "," ++ ")",
        data.map fun kv => kv.2) := by
  have hkey : (if o.connection ≠ "" then mapGet o.myOrm.connectionEncKeys o.connection
      else mapGet o.myOrm.connectionEncKeys o.myOrm.defaultConnection) = resolvedKey o := by
    unfold resolvedKey
    by_cases hc : o.connection = "" <;> simp [hc]
  have h := Insert_loop_eq o.encryptedColumns (resolvedKey o) (default : V) data [] [] [] 0 0
    rfl rfl rfl
  simp only [List.nil_append, Nat.add_zero, List.replicate_zero, List.append_nil] at h
  unfold Insert.build
  simp only [hkey, h]

/-- The statement and bindings built by `Update`: no write is out of range. -/
theorem Update_build_eq (o : QueryBuilder H V) (data : List (String × V)) (whereStr : String)
    (bindings : List V) (hw : o.genWhere = some (whereStr, bindings)) :
    Update.build o data = some
      ("UPDATE " ++ o.table ++ " SET " ++ strings.Join (data.map fun kv => kv.1 ++ " = ?") ", " ++
        " " ++ whereStr,
        data.map (fun kv => kv.2) ++ bindings) := by
  have h := Update_loop_eq data [] [] 0
  simp only [List.nil_append, Nat.add_zero, List.replicate_zero, List.append_nil,
    List.length_nil] at h
  unfold Update.build
  simp only [h, hw]

/-- C15: for a payload iterated as the entries `(c1, v1), ..., (cn, vn)`,
`Insert` builds the text `INSERT INTO <table> (c1, ..., cn) VALUES (p1,...,pn)`
where `pi` is `AES_ENCRYPT(?, '<key>')` when `ci` is listed in the encrypted
columns and `?` otherwise, and the bindings `[v1, ..., vn]`; columns,
placeholders and bindings have the payload's length and the i-th binding is
the value of the i-th column.  That statement is what every returning call
sends, and the call returns when the builder's handle exists. -/
theorem C15_insert_statement [Inhabited V] (o : QueryBuilder H V) (data : List (String × V))
    (exec : H → String → List V → Except E (Except E Int)) :
    ∃ (columns placeholders : List String) (bindings : List V),
      columns = data.map (fun kv => kv.1) ∧
      placeholders = data.map (fun kv =>
        if kv.1 ∈ o.encryptedColumns then
          "AES_ENCRYPT(?, '" ++
            (if o.connection = "" then mapGet o.myOrm.connectionEncKeys o.myOrm.defaultConnection
             else mapGet o.myOrm.connectionEncKeys o.connection) ++ "')"
        else "?") ∧
      bindings = data.map (fun kv => kv.2) ∧
      columns.length = data.length ∧ placeholders.length = data.length ∧
      bindings.length = data.length ∧ columns.zip bindings = data ∧
      Insert.build o data = some
        ("INSERT INTO " ++ o.table ++ " (" ++ strings.Join columns ", " ++ ") VALUES (" ++
          strings.Join placeholders "," ++ ")", bindings) ∧
      (∀ run, o.Insert exec data = some run → run.query =
        ("INSERT INTO " ++ o.table ++ " (" ++ strings.Join columns ", " ++ ") VALUES (" ++
          strings.Join placeholders "," ++ ")", bindings)) ∧
      (∀ h, (if o.connection ≠ "" then handleOf o.myOrm.connections o.connection
          else handleOf o.myOrm.connections o.myOrm.defaultConnection) = some h →
        ∃ run, o.Insert exec data = some run) := by
  have hb := Insert_build_eq o data
  have hz : ∀ l : List (String × V), (l.map fun kv => kv.1).zip (l.map fun kv => kv.2) = l := by
    intro l
    induction l with
    | nil => rfl
    | cons kv rest ih => simp [ih]
  refine ⟨_, _, _, rfl, rfl, rfl, by simp, by simp, by simp, hz data, hb, ?_, ?_⟩
  · intro run hrun
    unfold QueryBuilder.Insert at hrun
    rw [hb] at hrun
    simp only [] at hrun
    split at hrun
    · exact absurd hrun (by simp)
    · split at hrun <;>
      · simp only [Option.some.injEq] at hrun
        subst hrun
        rfl
  · intro h hh
    unfold QueryBuilder.Insert
    rw [hb]
    simp only [hh]
    split <;> exact ⟨_, rfl⟩

/-- C15 at the payload iterated as `name`, then the encrypted column `secret`. -/
theorem C15_insert_statement_witness :
    ∃ run, sampleWrite.Insert sampleExec [("name", 1), ("secret", 2)] = some run ∧
      run.query = ("INSERT INTO users (name, secret) VALUES (?,AES_ENCRYPT(?, 'k1'))", [1, 2]) := by
  obtain ⟨columns, placeholders, bindings, h1, h2, h3, -, -, -, -, -, h9, h10⟩ :=
    C15_insert_statement sampleWrite [("name", 1), ("secret", 2)] sampleExec
  obtain ⟨run, hrun⟩ := h10 () (by decide)
  refine ⟨run, hrun, ?_⟩
  rw [h9 run hrun, h1, h2, h3]
  decide

/-- C16: for a payload iterated as the entries `(c1, v1), ..., (cn, vn)`,
`Update` builds the text `UPDATE <table> SET ` followed by the fragments
`<ci> = ?` joined by `, `, a space and the WHERE text of `genWhere`, and the
bindings `v1, ..., vn` followed by the `genWhere` bindings.  That statement is
what every returning call sends, and the call returns when the builder's
handle exists. -/
theorem C16_update_statement (o : QueryBuilder H V) (data : List (String × V))
    (exec : H → String → List V → Except E (Except E Int)) :
    ∃ (whereStr : String) (bindings : List V),
      o.genWhere = some (whereStr, bindings) ∧
      Update.build o data = some
        ("UPDATE " ++ o.table ++ " SET " ++
          strings.Join (data.map fun kv => kv.1 ++ " = ?") ", " ++ " " ++ whereStr,
          data.map (fun kv => kv.2) ++ bindings) ∧
      (∀ run, o.Update exec data = some run → run.query =
        ("UPDATE " ++ o.table ++ " SET " ++
          strings.Join (data.map fun kv => kv.1 ++ " = ?") ", " ++ " " ++ whereStr,
          data.map (fun kv => kv.2) ++ bindings)) ∧
      (∀ h, (if o.connection ≠ "" then handleOf o.myOrm.connections o.connection
          else handleOf o.myOrm.connections o.myOrm.defaultConnection) = some h →
        ∃ run, o.Update exec data = some run) := by
  obtain ⟨whereStr, hw⟩ := genWhere_bindings o
  have hb := Update_build_eq o data whereStr _ hw
  refine ⟨whereStr, _, hw, hb, ?_, ?_⟩
  · intro run hrun
    unfold QueryBuilder.Update at hrun
    rw [hb] at hrun
    simp only [] at hrun
    split at hrun
    · exact absurd hrun (by simp)
    · split at hrun <;>
      · simp only [Option.some.injEq] at hrun
        subst hrun
        rfl
  · intro h hh
    unfold QueryBuilder.Update
    rw [hb]
    simp only [hh]
    split <;> exact ⟨_, rfl⟩

/-- C16 at the payload iterated as `name`, then `age`, on a builder with the
predicate `id = 7`. -/
theorem C16_update_statement_witness :
    ∃ run, sampleWrite.Update sampleExec [("name", 1), ("age", 2)] = some run ∧
      run.query = ("UPDATE users SET name = ?, age = ? WHERE id = ?", [1, 2, 7]) := by
  obtain ⟨whereStr, bindings, h1, -, h3, h4⟩ :=
    C16_update_statement sampleWrite [("name", 1), ("age", 2)] sampleExec
  obtain ⟨run, hrun⟩ := h4 () (by decide)
  refine ⟨run, hrun, ?_⟩
  have hw : sampleWrite.genWhere = some ("WHERE id = ?", [7]) := by decide
  rw [hw] at h1
  simp only [Option.some.injEq, Prod.mk.injEq] at h1
  rw [h3 run hrun, ← h1.1, ← h1.2]
  decide

end ExecLemmas

/-! ## Mock query builder -/

section MockLemmas
variable {V R E : Type}

/-- C17 (the code): `Insert`, `Update`, `First` and `Get` of the mock return
what the caller-supplied function returns and every chain call returns the
mock itself, but `Delete` and `Paginate` call themselves and never call
`FuncDelete` or `FuncPaginate`: whatever the bound on the depth of nested
calls, they yield no result. -/
theorem C17_mock_delete_paginate_never_return (m : MockQueryBuilderTemplate V R E) :
    (∀ fuel, m.Delete fuel = none ∧ m.Delete fuel ≠ some (m.FuncDelete ())) ∧
    (∀ fuel page perPage a, m.Paginate page perPage a fuel = none ∧
      m.Paginate page perPage a fuel ≠ some (m.FuncPaginate page perPage a)) ∧
    (∀ data, m.Insert data = m.FuncInsert data) ∧
    (∀ data, m.Update data = m.FuncUpdate data) ∧
    (∀ a, m.First a = m.FuncFirst a) ∧
    (∀ a, m.Get a = m.FuncGet a) ∧
    (∀ c, m.chain c = m) ∧
    sampleMock.Delete 1000 = none := by
  have hd : ∀ (m1 : MockQueryBuilderTemplate V R E) (fuel : Nat), m1.Delete fuel = none := by
    intro m1 fuel
    induction fuel with
    | zero => rfl
    | succ n ih => simpa [MockQueryBuilderTemplate.Delete] using ih
  have hp : ∀ fuel page perPage a, m.Paginate page perPage a fuel = none := by
    intro fuel page perPage a
    induction fuel with
    | zero => rfl
    | succ n ih => simpa [MockQueryBuilderTemplate.Paginate] using ih
  refine ⟨?_, ?_, fun _ => rfl, fun _ => rfl, fun _ => rfl, fun _ => rfl, ?_, ?_⟩
  · intro fuel
    exact ⟨hd m fuel, by rw [hd m fuel]; simp⟩
  · intro fuel page perPage a
    exact ⟨hp fuel page perPage a, by rw [hp fuel page perPage a]; simp⟩
  · intro c
    rcases c with c | c
    · cases c <;> rfl
    · rfl
  · have h : ∀ fuel, sampleMock.Delete fuel = none := by
      intro fuel
      induction fuel with
      | zero => rfl
      | succ n ih => simpa [MockQueryBuilderTemplate.Delete] using ih
    exact h 1000

end MockLemmas

/-! ## Frame of the clause-setting calls and totality of compilation -/

section Frame
variable {H V : Type}

/-- One clause-setting call appends what it registers to its own list and
changes nothing else. -/
theorem Call.run_frame [Inhabited V] (c : Call V) (o : QueryBuilder H V) :
    c.run o = some
      { o with
        selectColumns := o.selectColumns ++ c.selects
        encryptedColumns := o.encryptedColumns ++ c.encryptedCols
        leftJoin := o.leftJoin ++ c.joinsOf "LEFT"
        rightJoin := o.rightJoin ++ c.joinsOf "RIGHT"
        innerJoin := o.innerJoin ++ c.joinsOf "INNER"
        fullJoin := o.fullJoin ++ c.joinsOf "FULL OUTER"
        where_ := o.where_ ++ c.wheres
        whereEncrypted := o.whereEncrypted ++ c.encryptedWheres
        whereIn := o.whereIn ++ c.ins
        whereRaw := o.whereRaw ++ c.raws
        groupBy := o.groupBy ++ c.groupBys
        orderBy := o.orderBy ++ c.orderBys } := by
  cases c <;>
    simp [Call.run, WhereIn_eq, QueryBuilder.Select, QueryBuilder.EncryptedColumns,
      QueryBuilder.LeftJoin, QueryBuilder.RightJoin, QueryBuilder.InnerJoin,
      QueryBuilder.FullJoin, QueryBuilder.Where, QueryBuilder.WhereRaw, QueryBuilder.GroupBy,
      QueryBuilder.OrderBy, QueryBuilder.WhereEncrypted, Call.selects, Call.encryptedCols,
      Call.joinsOf, Call.wheres, Call.encryptedWheres, Call.ins, Call.raws, Call.groupBys,
      Call.orderBys]

/-- C19: every chain of clause-setting calls returns a builder in which each
list is the list held before followed by the arguments of the calls on that
list, in call order, a variadic call appending all its arguments in the order
given; the table, the connection override, the payload and the registry are
unchanged.  A single call is the chain of length one. -/
theorem C19_clause_calls_append [Inhabited V] (calls : List (Call V)) (o : QueryBuilder H V) :
    ∃ o1, runCalls o calls = some o1 ∧
      o1.selectColumns = o.selectColumns ++ calls.flatMap Call.selects ∧
      o1.encryptedColumns = o.encryptedColumns ++ calls.flatMap Call.encryptedCols ∧
      o1.leftJoin = o.leftJoin ++ calls.flatMap (Call.joinsOf "LEFT") ∧
      o1.rightJoin = o.rightJoin ++ calls.flatMap (Call.joinsOf "RIGHT") ∧
      o1.innerJoin = o.innerJoin ++ calls.flatMap (Call.joinsOf "INNER") ∧
      o1.fullJoin = o.fullJoin ++ calls.flatMap (Call.joinsOf "FULL OUTER") ∧
      o1.where_ = o.where_ ++ calls.flatMap Call.wheres ∧
      o1.whereEncrypted = o.whereEncrypted ++ calls.flatMap Call.encryptedWheres ∧
      o1.whereIn = o.whereIn ++ calls.flatMap Call.ins ∧
      o1.whereRaw = o.whereRaw ++ calls.flatMap Call.raws ∧
      o1.groupBy = o.groupBy ++ calls.flatMap Call.groupBys ∧
      o1.orderBy = o.orderBy ++ calls.flatMap Call.orderBys ∧
      o1.table = o.table ∧ o1.connection = o.connection ∧ o1.insert = o.insert ∧
      o1.myOrm = o.myOrm := by
  induction calls generalizing o with
  | nil => exact ⟨o, by simp [runCalls]⟩
  | cons c cs ih =>
    obtain ⟨o2, g, g1, g2, g3, g4, g5, g6, g7, g8, g9, g10, g11, g12, g13, g14, g15, g16⟩ :=
      ih { o with
        selectColumns := o.selectColumns ++ c.selects
        encryptedColumns := o.encryptedColumns ++ c.encryptedCols
        leftJoin := o.leftJoin ++ c.joinsOf "LEFT"
        rightJoin := o.rightJoin ++ c.joinsOf "RIGHT"
        innerJoin := o.innerJoin ++ c.joinsOf "INNER"
        fullJoin := o.fullJoin ++ c.joinsOf "FULL OUTER"
        where_ := o.where_ ++ c.wheres
        whereEncrypted := o.whereEncrypted ++ c.encryptedWheres
        whereIn := o.whereIn ++ c.ins
        whereRaw := o.whereRaw ++ c.raws
        groupBy := o.groupBy ++ c.groupBys
        orderBy := o.orderBy ++ c.orderBys }
    refine ⟨o2, by simp only [runCalls, Call.run_frame c o, g], ?_⟩
    simp only [List.flatMap_cons, g1, g2, g3, g4, g5, g6, g7, g8, g9, g10, g11, g12, g13, g14,
      g15, g16, List.append_assoc, and_self]

/-- C20: compilation never fails.  The four loops of `genWhere` end without an
out-of-range write, in a state whose fragment array has as many slots as the
builder has predicates and whose index `i` is that number; `genWhere` and
`genSearchQuery` return. -/
theorem C20_compilation_total (o : QueryBuilder H V) :
    ∃ st, genWhere.loops o = some st ∧
      st.str.length
        = o.where_.length + o.whereIn.length + o.whereEncrypted.length + o.whereRaw.length ∧
      st.i = st.str.length ∧
      (∃ r, o.genWhere = some r) ∧ (∃ r, genSearchQuery o = some r) := by
  refine ⟨_, genWhere_loops_eq o, ?_, ?_, ?_, ?_⟩
  · simp only [whereFragments, List.length_append, List.length_map]
    omega
  · simp only [whereFragments, List.length_append, List.length_map]
  · exact ⟨_, genWhere_eq o⟩
  · obtain ⟨t, ht⟩ := genSearchQuery_bindings o
    exact ⟨_, ht⟩

end Frame

/-! ## One encryption key per builder -/

section EncryptionKey
variable {H V : Type}

/-- C21: with non-empty names of the selected columns, there is one string
`key`, the default connection's key when the builder has no connection
override and the key registered under the override name otherwise, which is
the key that `Insert` embeds in every `AES_ENCRYPT(?, '<key>')`, `genSelect`
in every `AES_DECRYPT(col, '<key>') AS col` and `genWhere` in every
`AES_DECRYPT(col, '<key>')`. -/
theorem C21_same_encryption_key [Inhabited V] (o : QueryBuilder H V)
    (data : List (String × V)) (hne : ∀ c ∈ o.selectColumns, c ≠ "") :
    ∃ key : String,
      key = (if o.connection = "" then mapGet o.myOrm.connectionEncKeys o.myOrm.defaultConnection
        else mapGet o.myOrm.connectionEncKeys o.connection) ∧
      Insert.build o data = some
        ("INSERT INTO " ++ o.table ++ " (" ++ strings.Join (data.map fun kv => kv.1) ", " ++
          ") VALUES (" ++
          strings.Join (data.map fun kv =>
            if kv.1 ∈ o.encryptedColumns then "AES_ENCRYPT(?, '" ++ key ++ "')" else "?") "," ++
          ")",
          data.map fun kv => kv.2) ∧
      o.genSelect =
        (if o.selectColumns = [] then "SELECT *"
         else "SELECT " ++ strings.Join (o.selectColumns.map fun c =>
          if c ∈ o.encryptedColumns then "AES_DECRYPT(" ++ c ++ ", '" ++ key ++ "') AS " ++ c
          else c) ", ") ∧
      o.genWhere = some
        (if (whereBindings o).length = 0 then ("", [])
         else ("WHERE " ++ strings.Join
            (o.where_.map (fun p => p.1 ++ " " ++ p.2.1 ++ " ?") ++
              o.whereEncrypted.map (fun p =>
                "AES_DECRYPT(" ++ p.1 ++ ", '" ++ key ++ "') " ++ p.2.1 ++ " ?") ++
              o.whereIn.map inFragment ++ o.whereRaw.map (fun w => w.RawQuery)) " AND ",
            whereBindings o)) :=
  ⟨resolvedKey o, rfl, Insert_build_eq o data, genSelect_render o hne, genWhere_eq o⟩

/-- C21 at a builder without override on a registry whose default key is `k1`:
the three statements embed `k1`. -/
theorem C21_same_encryption_key_witness :
    Insert.build sampleEncrypted [("secret", 9)]
      = some ("INSERT INTO users (secret) VALUES (AES_ENCRYPT(?, 'k1'))", [9]) ∧
    sampleEncrypted.genSelect = "SELECT AES_DECRYPT(secret, 'k1') AS secret" ∧
    sampleEncrypted.genWhere = some ("WHERE AES_DECRYPT(secret, 'k1') = ?", [5]) := by
  obtain ⟨key, hk, h1, h2, h3⟩ :=
    C21_same_encryption_key sampleEncrypted [("secret", 9)] (by decide)
  have hk1 : key = "k1" := by rw [hk]; decide
  subst hk1
  exact ⟨h1, h2, h3⟩

end EncryptionKey

end myorm

